import Mathlib

/-!
Verification of the conversation/session orchestration core of the
word-copilot Word add-in, as a shallow embedding in Lean 4.

The embedding covers:
* the session store (`SessionManager` in `src/helpers/voiceInput.ts`, second
  document: sessionManager): `createSession`, `deleteSession`, `addMessage`,
  `addDisplayMessage`, `getMessages`, `getSessionList`, `buildUserMessage`;
* the chat transport (`src/helpers/llmClient.ts`): `buildEndpoint`, the
  payload-size pruning guard of `sendChat`, and its transient-failure
  retry / error-handling logic;
* the tool executor (`src/helpers/toolExecutor.ts`): `executeSingleToolCall`
  and `executeToolCalls` against an abstract document adapter;
* the send handler of `src/taskpane/components/ChatPanel.tsx`
  (`requiresSelection` heuristic and its pre-emption branch).

Modelling conventions:
* JS `number` timestamps are `Nat`; nondeterministic inputs (`Date.now()`,
  generated ids) are explicit parameters.
* A JS `Map<string, Session>` is an insertion-ordered `List Session`;
  key uniqueness is an explicit `Nodup` hypothesis where it matters.
* A JSON argument string is modelled by its parse result
  (`Option ToolArgsObj`): `none` stands for a string `JSON.parse` rejects.
* `JSON.stringify(...).length` (the payload estimator) is kept abstract as a
  function `List ChatMessage → Nat` of the message list, since all other
  request-body fields are fixed while the pruning loop runs.
* JS string helpers (`trim`, `includes`, `endsWith`, trailing-slash
  stripping, `toLowerCase`) are modelled on `List Char` data so that all
  definitions evaluate by `decide` / `rfl`.
-/

/-! ## JS string primitives -/

/-- Model of JS `String.prototype.trim` (Lean's `Char.isWhitespace` covers
space, tab, CR, LF — the whitespace that occurs in this code base). -/
def jsTrim (s : String) : String :=
  ⟨((s.data.dropWhile Char.isWhitespace).reverse.dropWhile Char.isWhitespace).reverse⟩

/-- Model of JS `hay.includes(needle)`. -/
def strContainsB (hay needle : String) : Bool :=
  (List.range (hay.data.length + 1)).any (fun i => needle.data.isPrefixOf (hay.data.drop i))

/-- Model of JS `s.endsWith(suffixStr)`. -/
def strEndsWith (s suffixStr : String) : Bool :=
  suffixStr.data.reverse.isPrefixOf s.data.reverse

/-- Model of JS `String.prototype.toLowerCase` (ASCII case only, which is all
the heuristic keyword lists use). -/
def jsToLower (s : String) : String :=
  ⟨s.data.map Char.toLower⟩

theorem isPrefixOf_append_self (l t : List Char) : l.isPrefixOf (l ++ t) = true := by
  induction l with
  | nil => simp [List.isPrefixOf]
  | cons a as ih => simp [List.isPrefixOf, ih]

theorem strContainsB_append_middle (a h b : String) :
    strContainsB (a ++ h ++ b) h = true := by
  unfold strContainsB
  rw [List.any_eq_true]
  refine ⟨a.data.length, ?_, ?_⟩
  · rw [List.mem_range]
    have : (a ++ h ++ b).data = a.data ++ h.data ++ b.data := by
      rw [String.data_append, String.data_append]
    rw [this]
    simp only [List.length_append]
    omega
  · have hdata : (a ++ h ++ b).data = a.data ++ (h.data ++ b.data) := by
      rw [String.data_append, String.data_append, List.append_assoc]
    rw [hdata, List.drop_left]
    exact isPrefixOf_append_self h.data b.data

/-! ## Data model (`src/types/llm.ts`, `src/types/tools.ts`) -/

/-- The parsed form of a JSON tool-argument payload: the optional fields the
four tools read (`content`, `position`, `comment`). -/
structure ToolArgsObj where
  content : Option String := none
  position : Option String := none
  comment : Option String := none
  deriving DecidableEq, Repr

/-- `ToolCall.function`: the operation name and the argument payload.
The payload is the parse result of the JSON string: `none` models a string
that `JSON.parse` throws on. -/
structure ToolCallFn where
  name : String
  arguments : Option ToolArgsObj
  deriving DecidableEq, Repr

/-- `ToolCall` from `src/types/llm.ts` (the `type: "function"` tag is
constant and omitted). -/
structure ToolCall where
  id : String
  function : ToolCallFn
  deriving DecidableEq, Repr

/-- `ChatMessage` from `src/types/llm.ts`. `content : string | null` becomes
`Option String`; the optional fields become `Option`s. -/
structure ChatMessage where
  role : String
  content : Option String
  tool_calls : Option (List ToolCall) := none
  tool_call_id : Option String := none
  name : Option String := none
  deriving DecidableEq, Repr

/-- `DisplayMessage` from `src/types/llm.ts`. -/
structure DisplayMessage where
  id : String
  role : String
  content : String
  timestamp : Nat
  toolCalls : Option (List ToolCall) := none
  isError : Option Bool := none
  deriving DecidableEq, Repr

/-- `ToolResult` from `src/types/tools.ts`. -/
structure ToolResult where
  toolCallId : String
  name : String
  success : Bool
  message : String
  error : Option String := none
  deriving DecidableEq, Repr

/-- `ModelConfig` from `src/types/settings.ts`. -/
structure ModelConfig where
  baseUrl : String
  apiKey : String
  model : String
  deriving DecidableEq, Repr

/-! ## Session store (`SessionManager`) -/

/-- `Session` from the sessionManager module. -/
structure Session where
  id : String
  name : String
  createdAt : Nat
  updatedAt : Nat
  messages : List ChatMessage
  displayMessages : List DisplayMessage
  deriving DecidableEq, Repr

/-- `MAX_MESSAGES_PER_SESSION`. -/
def MAX_MESSAGES_PER_SESSION : Nat := 50

/-- `MAX_SESSIONS`. -/
def MAX_SESSIONS : Nat := 20

/-- The last `n` elements of a list: model of JS `arr.slice(-n)` (for
`n ≥ 1`, which is the only use here). -/
def lastN (n : Nat) (l : List α) : List α :=
  l.drop (l.length - n)

/-- The per-session history cap applied by `addMessage` /
`addDisplayMessage`: `if (len > 50) slice(-50)`. -/
def trimCap (l : List α) : List α :=
  if MAX_MESSAGES_PER_SESSION < l.length then lastN MAX_MESSAGES_PER_SESSION l else l

/-- In-memory state of a `SessionManager`: the `Map<string, Session>` as an
insertion-ordered list, plus `activeSessionId`. -/
structure SessionManager where
  sessions : List Session
  activeSessionId : Option String
  deriving DecidableEq, Repr

/-- The id `getActiveSession` resolves to: the stored `activeSessionId` if
set (even if stale), else the first session in insertion order. -/
def SessionManager.resolveActiveId (m : SessionManager) : Option String :=
  match m.activeSessionId with
  | some id => some id
  | none => m.sessions.head?.map Session.id

/-- The `activeSessionId` write-back performed inside `getActiveSession`. -/
def SessionManager.touchActive (m : SessionManager) : SessionManager :=
  { m with activeSessionId := m.resolveActiveId }

/-- `getActiveSession` (value returned). -/
def SessionManager.getActiveSession (m : SessionManager) : Option Session :=
  m.resolveActiveId.bind (fun id => m.sessions.find? (fun s => s.id == id))

/-- `getMessages`: a copy of the active session's message history. -/
def SessionManager.getMessages (m : SessionManager) : List ChatMessage :=
  match m.getActiveSession with
  | some s => s.messages
  | none => []

/-- `getDisplayMessages`. -/
def SessionManager.getDisplayMessages (m : SessionManager) : List DisplayMessage :=
  match m.getActiveSession with
  | some s => s.displayMessages
  | none => []

/-- `addMessage(message)`: append to the active session's `messages`,
stamp `updatedAt`, and cap the history at 50 via `slice(-50)`.
`now` stands for `Date.now()`. -/
def SessionManager.addMessage (m : SessionManager) (now : Nat) (msg : ChatMessage) :
    SessionManager :=
  match m.touchActive.getActiveSession with
  | some s =>
      { m.touchActive with sessions := m.touchActive.sessions.map (fun t =>
          if t.id == s.id then
            { t with messages := trimCap (t.messages ++ [msg]), updatedAt := now }
          else t) }
  | none => m.touchActive

/-- The input of one `addDisplayMessage` call: the generated message id and
`Date.now()` are explicit. -/
structure DisplayInput where
  id : String
  now : Nat
  role : String
  content : String
  toolCalls : Option (List ToolCall) := none
  isError : Option Bool := none
  deriving DecidableEq, Repr

/-- The `DisplayMessage` record `addDisplayMessage` constructs. -/
def mkDisplayMessage (inp : DisplayInput) : DisplayMessage :=
  { id := inp.id, role := inp.role, content := inp.content,
    timestamp := inp.now, toolCalls := inp.toolCalls, isError := inp.isError }

/-- `addDisplayMessage`: append to the active session's `displayMessages`,
stamp `updatedAt`, cap at 50.  Returns the manager and the constructed
message (`null` when there is no active session). -/
def SessionManager.addDisplayMessage (m : SessionManager) (inp : DisplayInput) :
    SessionManager × Option DisplayMessage :=
  match m.touchActive.getActiveSession with
  | some s =>
      ({ m.touchActive with sessions := m.touchActive.sessions.map (fun t =>
          if t.id == s.id then
            { t with
              displayMessages := trimCap (t.displayMessages ++ [mkDisplayMessage inp]),
              updatedAt := inp.now }
          else t) }, some (mkDisplayMessage inp))
  | none => (m.touchActive, none)

/-- `buildUserMessage(userInput, selection?, documentText?, userRulesText?)`.
The three context blocks are gated exactly as the source does: the rules
block by JS truthiness of `userRulesText` (non-empty string), the document
and selection blocks by truthiness of the value *and* of its `trim()`. -/
def buildUserMessage (userInput : String) (selection documentText userRulesText : Option String) :
    ChatMessage :=
  let parts : List String :=
    (match userRulesText with
     | some r => if r ≠ "" then ["[USER_RULES]\n" ++ r ++ "\n[/USER_RULES]"] else []
     | none => []) ++
    (match documentText with
     | some d => if d ≠ "" ∧ jsTrim d ≠ "" then ["[DOCUMENT]\n" ++ jsTrim d ++ "\n[/DOCUMENT]"] else []
     | none => []) ++
    (match selection with
     | some s => if s ≠ "" ∧ jsTrim s ≠ "" then ["[SELECTION]\n" ++ jsTrim s ++ "\n[/SELECTION]"] else []
     | none => []) ++
    [userInput]
  { role := "user", content := some (String.intercalate "\n\n" parts) }

/-! ## C3: `buildUserMessage` context blocks -/

theorem intercalate_singleton (a : String) : String.intercalate "\n\n" [a] = a := rfl

theorem intercalate_four (sep a b c d : String) :
    String.intercalate sep [a, b, c, d] = a ++ sep ++ b ++ sep ++ c ++ sep ++ d := by
  show String.intercalate.go a sep [b, c, d] = _
  show String.intercalate.go (a ++ sep ++ b) sep [c, d] = _
  show String.intercalate.go (a ++ sep ++ b ++ sep ++ c) sep [d] = _
  show (a ++ sep ++ b ++ sep ++ c ++ sep ++ d) = _
  rfl

/-- C3 (counterexample): the claim says each block — the rules block
included — is omitted when its input is blank (whitespace-only).  But the
rules block is gated by JS truthiness only: `buildUserMessage "hi"` with a
whitespace-only `userRulesText` still emits a `[USER_RULES]` block, so the
content is not the bare user input. -/
theorem c3_buildUserMessage_counterexample :
    (buildUserMessage "hi" none none (some " ")).content
      = some "[USER_RULES]\n \n[/USER_RULES]\n\nhi"
    ∧ (buildUserMessage "hi" none none (some " ")).content ≠ some "hi" := by
  constructor
  · rfl
  · decide

/-- C3 (amended): with no context inputs the content is exactly the user
input, with no bracketed block; with all three supplied and non-blank the
content is the `[USER_RULES]`, `[DOCUMENT]`, `[SELECTION]` blocks in that
order followed by the raw input; the document and selection blocks are
omitted whenever their input is empty or blank, while the rules block is
omitted only when its input is the empty string (a whitespace-only
`userRulesText` still produces a rules block). -/
theorem c3_buildUserMessage (u r d s : String)
    (hr : r ≠ "") (hd : jsTrim d ≠ "") (hs : jsTrim s ≠ "") :
    buildUserMessage u none none none = { role := "user", content := some u }
    ∧ (buildUserMessage u (some s) (some d) (some r)).content
        = some ("[USER_RULES]\n" ++ r ++ "\n[/USER_RULES]" ++ "\n\n"
            ++ ("[DOCUMENT]\n" ++ jsTrim d ++ "\n[/DOCUMENT]") ++ "\n\n"
            ++ ("[SELECTION]\n" ++ jsTrim s ++ "\n[/SELECTION]") ++ "\n\n" ++ u)
    ∧ (∀ sel doc, buildUserMessage u sel doc (some "") = buildUserMessage u sel doc none)
    ∧ (∀ sel rules d', jsTrim d' = "" →
        buildUserMessage u sel (some d') rules = buildUserMessage u sel none rules)
    ∧ (∀ doc rules s', jsTrim s' = "" →
        buildUserMessage u (some s') doc rules = buildUserMessage u none doc rules) := by
  have hd' : d ≠ "" := by
    intro h; apply hd; rw [h]; rfl
  have hs' : s ≠ "" := by
    intro h; apply hs; rw [h]; rfl
  refine ⟨?_, ?_, ?_, ?_, ?_⟩
  · unfold buildUserMessage
    simp [intercalate_singleton]
  · unfold buildUserMessage
    simp only [if_pos hr, if_pos (And.intro hd' hd), if_pos (And.intro hs' hs)]
    simp [intercalate_four]
  · intro sel doc
    unfold buildUserMessage
    simp
  · intro sel rules d' hblank
    unfold buildUserMessage
    have : ¬(d' ≠ "" ∧ jsTrim d' ≠ "") := by
      intro h; exact h.2 hblank
    simp [this]
  · intro doc rules s' hblank
    unfold buildUserMessage
    have : ¬(s' ≠ "" ∧ jsTrim s' ≠ "") := by
      intro h; exact h.2 hblank
    simp [this]

/-- C3 witness: the amended theorem applied at `"hi"` / `"r"` / `" doc "` /
`"sel"`. -/
theorem c3_buildUserMessage_witness :
    buildUserMessage "hi" none none none = { role := "user", content := some "hi" }
    ∧ (buildUserMessage "hi" (some "sel") (some " doc ") (some "r")).content
        = some ("[USER_RULES]\nr\n[/USER_RULES]\n\n[DOCUMENT]\ndoc\n[/DOCUMENT]\n\n[SELECTION]\nsel\n[/SELECTION]\n\nhi") := by
  have h := c3_buildUserMessage "hi" "r" " doc " "sel" (by decide) (by decide) (by decide)
  refine ⟨h.1, ?_⟩
  rw [h.2.1]
  rfl

/-! ## C1: per-session history caps -/

theorem lastN_of_le (l : List α) (h : l.length ≤ n) : lastN n l = l := by
  unfold lastN
  rw [Nat.sub_eq_zero_of_le h, List.drop_zero]

theorem lastN_suffix (n : Nat) (u v : List α) (h : n ≤ v.length) :
    lastN n (u ++ v) = lastN n v := by
  unfold lastN
  rw [List.length_append]
  have harith : u.length + v.length - n = u.length + (v.length - n) := by omega
  rw [harith, List.drop_append]

theorem trimCap_eq_lastN (l : List α) : trimCap l = lastN MAX_MESSAGES_PER_SESSION l := by
  unfold trimCap
  split
  · rfl
  · rw [lastN_of_le]
    omega

theorem lastN_trimCap_append (a b : List α) :
    lastN MAX_MESSAGES_PER_SESSION (trimCap a ++ b) = lastN MAX_MESSAGES_PER_SESSION (a ++ b) := by
  rw [trimCap_eq_lastN]
  rcases le_or_lt a.length MAX_MESSAGES_PER_SESSION with hle | hlt
  · rw [lastN_of_le a hle]
  · have hlen : (lastN MAX_MESSAGES_PER_SESSION a).length = MAX_MESSAGES_PER_SESSION := by
      unfold lastN
      rw [List.length_drop]
      omega
    have ha : a = a.take (a.length - MAX_MESSAGES_PER_SESSION)
        ++ lastN MAX_MESSAGES_PER_SESSION a := by
      unfold lastN
      rw [List.take_append_drop]
    have h2 : MAX_MESSAGES_PER_SESSION ≤ (lastN MAX_MESSAGES_PER_SESSION a ++ b).length := by
      rw [List.length_append, hlen]
      omega
    conv_rhs =>
      rw [ha, List.append_assoc,
        lastN_suffix MAX_MESSAGES_PER_SESSION _ _ h2]

theorem foldl_trimCap (adds : List α) :
    ∀ base, adds ≠ [] →
      adds.foldl (fun acc x => trimCap (acc ++ [x])) base
        = lastN MAX_MESSAGES_PER_SESSION (base ++ adds) := by
  induction adds with
  | nil => intro base h; exact absurd rfl h
  | cons x xs ih =>
    intro base _
    rw [List.foldl_cons]
    by_cases hxs : xs = []
    · subst hxs
      simp only [List.foldl_nil]
      rw [trimCap_eq_lastN]
    · rw [ih _ hxs, lastN_trimCap_append]
      congr 1
      simp

theorem find?_map_update (l : List Session) (idv : String) (f : Session → Session)
    (hf : ∀ s, (f s).id = s.id) :
    (l.map (fun t => if t.id == idv then f t else t)).find? (fun s => s.id == idv)
      = (l.find? (fun s => s.id == idv)).map (fun t => if t.id == idv then f t else t) := by
  induction l with
  | nil => rfl
  | cons a as ih =>
    simp only [List.map_cons, List.find?_cons]
    by_cases h : (a.id == idv) = true
    · rw [if_pos h]
      have h2 : ((f a).id == idv) = true := by rw [hf]; exact h
      simp only [h, h2]
      show some (f a) = some (if (a.id == idv) = true then f a else a)
      rw [if_pos h]
    · rw [if_neg h]
      have h' : (a.id == idv) = false := by
        cases hb : (a.id == idv)
        · rfl
        · exact absurd hb h
      simp only [h', ih]

theorem getActiveSession_resolved (m : SessionManager) (s : Session)
    (h : m.getActiveSession = some s) :
    ∃ idv, m.resolveActiveId = some idv
      ∧ m.sessions.find? (fun t => t.id == idv) = some s
      ∧ s.id = idv := by
  unfold SessionManager.getActiveSession at h
  cases hr : m.resolveActiveId with
  | none => rw [hr] at h; simp at h
  | some idv =>
    rw [hr] at h
    have h' : m.sessions.find? (fun t => t.id == idv) = some s := by
      simpa using h
    have hbeq : (s.id == idv) = true := by
      have := List.find?_some h'
      simpa using this
    exact ⟨idv, rfl, h', eq_of_beq hbeq⟩

theorem getActiveSession_mk (l : List Session) (a : Option String) (idv : String)
    (h : a = some idv) :
    (SessionManager.mk l a).getActiveSession = l.find? (fun t => t.id == idv) := by
  subst h
  rfl

theorem getActiveSession_addMessage (m : SessionManager) (s : Session)
    (now : Nat) (msg : ChatMessage) (h : m.getActiveSession = some s) :
    (m.addMessage now msg).getActiveSession
      = some { s with messages := trimCap (s.messages ++ [msg]), updatedAt := now } := by
  obtain ⟨idv, hr, hfind, hid⟩ := getActiveSession_resolved m s h
  have h1 : m.touchActive.activeSessionId = some idv := hr
  have hres : (m.touchActive).getActiveSession = some s :=
    (getActiveSession_mk m.sessions m.resolveActiveId idv hr).trans hfind
  subst hid
  have e1 : (m.addMessage now msg).getActiveSession
      = (m.sessions.map (fun t =>
          if t.id == s.id then
            { t with messages := trimCap (t.messages ++ [msg]), updatedAt := now }
          else t)).find? (fun t => t.id == s.id) := by
    unfold SessionManager.addMessage
    rw [hres]
    exact getActiveSession_mk _ _ s.id h1
  rw [e1, find?_map_update m.sessions s.id
      (fun t => { t with messages := trimCap (t.messages ++ [msg]), updatedAt := now })
      (fun t => rfl), hfind]
  simp [beq_self_eq_true]

theorem getActiveSession_addDisplayMessage (m : SessionManager) (s : Session)
    (inp : DisplayInput) (h : m.getActiveSession = some s) :
    (m.addDisplayMessage inp).1.getActiveSession
      = some { s with
          displayMessages := trimCap (s.displayMessages ++ [mkDisplayMessage inp]),
          updatedAt := inp.now } := by
  obtain ⟨idv, hr, hfind, hid⟩ := getActiveSession_resolved m s h
  have h1 : m.touchActive.activeSessionId = some idv := hr
  have hres : (m.touchActive).getActiveSession = some s :=
    (getActiveSession_mk m.sessions m.resolveActiveId idv hr).trans hfind
  subst hid
  have e1 : (m.addDisplayMessage inp).1.getActiveSession
      = (m.sessions.map (fun t =>
          if t.id == s.id then
            { t with
              displayMessages := trimCap (t.displayMessages ++ [mkDisplayMessage inp]),
              updatedAt := inp.now }
          else t)).find? (fun t => t.id == s.id) := by
    unfold SessionManager.addDisplayMessage
    rw [hres]
    exact getActiveSession_mk _ _ s.id h1
  rw [e1, find?_map_update m.sessions s.id
      (fun t => { t with
        displayMessages := trimCap (t.displayMessages ++ [mkDisplayMessage inp]),
        updatedAt := inp.now })
      (fun t => rfl), hfind]
  simp [beq_self_eq_true]

theorem fold_addMessage_active (items : List (Nat × ChatMessage)) :
    ∀ (m : SessionManager) (s : Session), m.getActiveSession = some s →
      ∃ s', ((items.foldl (fun mg p => mg.addMessage p.1 p.2) m).getActiveSession = some s'
        ∧ s'.messages
            = (items.map Prod.snd).foldl (fun acc x => trimCap (acc ++ [x])) s.messages
        ∧ s'.displayMessages = s.displayMessages) := by
  induction items with
  | nil => exact fun m s h => ⟨s, h, rfl, rfl⟩
  | cons p ps ih =>
    intro m s h
    obtain ⟨s', h2, h3, h4⟩ := ih _ _ (getActiveSession_addMessage m s p.1 p.2 h)
    refine ⟨s', by simpa using h2, ?_, by simpa using h4⟩
    rw [h3]
    simp [List.foldl_cons]

theorem fold_addDisplayMessage_active (ditems : List DisplayInput) :
    ∀ (m : SessionManager) (s : Session), m.getActiveSession = some s →
      ∃ s', ((ditems.foldl (fun mg i => (mg.addDisplayMessage i).1) m).getActiveSession = some s'
        ∧ s'.displayMessages
            = (ditems.map mkDisplayMessage).foldl (fun acc x => trimCap (acc ++ [x]))
                s.displayMessages
        ∧ s'.messages = s.messages) := by
  induction ditems with
  | nil => exact fun m s h => ⟨s, h, rfl, rfl⟩
  | cons i is ih =>
    intro m s h
    obtain ⟨s', h2, h3, h4⟩ := ih _ _ (getActiveSession_addDisplayMessage m s i h)
    refine ⟨s', by simpa using h2, ?_, by simpa using h4⟩
    rw [h3]
    simp [List.foldl_cons]

/-- C1: starting from any manager with an active session, a sequence of
`addMessage` calls appending more than 50 messages leaves `getMessages()`
equal to exactly the 50 most recently appended messages, oldest first, and
does not touch the display history; dually, a sequence of more than 50
`addDisplayMessage` calls caps the display history at the 50 most recent
entries and does not touch the chat history — the two histories are trimmed
independently. -/
theorem c1_history_caps (m : SessionManager) (s : Session)
    (items : List (Nat × ChatMessage)) (ditems : List DisplayInput)
    (hact : m.getActiveSession = some s)
    (hlen : MAX_MESSAGES_PER_SESSION < items.length)
    (hdlen : MAX_MESSAGES_PER_SESSION < ditems.length) :
    (items.foldl (fun mg p => mg.addMessage p.1 p.2) m).getMessages
        = lastN MAX_MESSAGES_PER_SESSION (items.map Prod.snd)
    ∧ (items.foldl (fun mg p => mg.addMessage p.1 p.2) m).getDisplayMessages
        = s.displayMessages
    ∧ (ditems.foldl (fun mg i => (mg.addDisplayMessage i).1) m).getDisplayMessages
        = lastN MAX_MESSAGES_PER_SESSION (ditems.map mkDisplayMessage)
    ∧ (ditems.foldl (fun mg i => (mg.addDisplayMessage i).1) m).getMessages
        = s.messages := by
  obtain ⟨s', h2, h3, h4⟩ := fold_addMessage_active items m s hact
  obtain ⟨t', g2, g3, g4⟩ := fold_addDisplayMessage_active ditems m s hact
  have hne : items.map Prod.snd ≠ [] := by
    intro hcon
    have : items.length = 0 := by
      simpa using congrArg List.length hcon
    omega
  have hdne : ditems.map mkDisplayMessage ≠ [] := by
    intro hcon
    have : ditems.length = 0 := by
      simpa using congrArg List.length hcon
    omega
  refine ⟨?_, ?_, ?_, ?_⟩
  · unfold SessionManager.getMessages
    rw [h2]
    show s'.messages = _
    rw [h3, foldl_trimCap _ _ hne, lastN_suffix]
    rw [List.length_map]
    omega
  · unfold SessionManager.getDisplayMessages
    rw [h2]
    show s'.displayMessages = _
    rw [h4]
  · unfold SessionManager.getDisplayMessages
    rw [g2]
    show t'.displayMessages = _
    rw [g3, foldl_trimCap _ _ hdne, lastN_suffix]
    rw [List.length_map]
    omega
  · unfold SessionManager.getMessages
    rw [g2]
    show t'.messages = _
    rw [g4]

/-- A one-session manager used to instantiate the session-store theorems. -/
def mgrOne : SessionManager :=
  { sessions := [{ id := "s1", name := "n", createdAt := 0, updatedAt := 0,
                   messages := [], displayMessages := [] }],
    activeSessionId := some "s1" }

/-- 51 timestamped chat messages. -/
def c1Items : List (Nat × ChatMessage) :=
  (List.range 51).map (fun i => (i, { role := "user", content := some (toString i) }))

/-- 51 display-message inputs. -/
def c1DItems : List DisplayInput :=
  (List.range 51).map (fun i => { id := toString i, now := i, role := "user", content := toString i })

/-- C1 witness: the cap theorem applied to a concrete manager and 51
concrete appends on each history. -/
theorem c1_history_caps_witness :
    (c1Items.foldl (fun mg p => mg.addMessage p.1 p.2) mgrOne).getMessages
        = lastN MAX_MESSAGES_PER_SESSION (c1Items.map Prod.snd)
    ∧ (c1Items.foldl (fun mg p => mg.addMessage p.1 p.2) mgrOne).getDisplayMessages = []
    ∧ (c1DItems.foldl (fun mg i => (mg.addDisplayMessage i).1) mgrOne).getDisplayMessages
        = lastN MAX_MESSAGES_PER_SESSION (c1DItems.map mkDisplayMessage)
    ∧ (c1DItems.foldl (fun mg i => (mg.addDisplayMessage i).1) mgrOne).getMessages = [] :=
  c1_history_caps mgrOne
    { id := "s1", name := "n", createdAt := 0, updatedAt := 0,
      messages := [], displayMessages := [] }
    c1Items c1DItems (by decide) (by decide) (by decide)

/-! ## C2: `deleteSession` never removes the last session -/

/-- `deleteSession(sessionId)`: with at most one session, clear the named
session in place (if present) and report `false`; otherwise remove it
(`Map.delete`, modelled by `eraseP` on the unique key) and, if it was the
active session, make the first remaining session active. -/
def SessionManager.deleteSession (m : SessionManager) (now : Nat) (sid : String) :
    SessionManager × Bool :=
  if m.sessions.length ≤ 1 then
    match m.sessions.find? (fun s => s.id == sid) with
    | some _ =>
        ({ m with sessions := m.sessions.map (fun t =>
            if t.id == sid then { t with messages := [], displayMessages := [], updatedAt := now }
            else t) }, false)
    | none => (m, false)
  else
    ({ m with
        sessions := m.sessions.eraseP (fun s => s.id == sid),
        activeSessionId :=
          if (m.sessions.any (fun s => s.id == sid)) && (m.activeSessionId == some sid) then
            (m.sessions.eraseP (fun s => s.id == sid)).head?.map Session.id
          else m.activeSessionId },
      m.sessions.any (fun s => s.id == sid))

/-- C2: deleting the sole remaining session keeps the session count at 1,
clears that session's two histories in place, and returns `false`; deleting
one of several (existing) sessions removes exactly the named one, and if it
was active some remaining session becomes active. -/
theorem c2_deleteSession (m : SessionManager) (now : Nat)
    (hnodup : (m.sessions.map Session.id).Nodup) :
    (∀ s, m.sessions = [s] →
       (m.deleteSession now s.id).2 = false
       ∧ (m.deleteSession now s.id).1.sessions
           = [{ s with messages := [], displayMessages := [], updatedAt := now }]
       ∧ (m.deleteSession now s.id).1.sessions.length = 1)
    ∧ (∀ sid t, 2 ≤ m.sessions.length → t ∈ m.sessions → t.id = sid →
       (m.deleteSession now sid).2 = true
       ∧ (m.deleteSession now sid).1.sessions.length = m.sessions.length - 1
       ∧ (∀ u ∈ (m.deleteSession now sid).1.sessions, u.id ≠ sid)
       ∧ (m.activeSessionId = some sid →
          ∃ u ∈ (m.deleteSession now sid).1.sessions,
            (m.deleteSession now sid).1.activeSessionId = some u.id)) := by
  constructor
  · intro s hs
    have key : (m.deleteSession now s.id).1.sessions
          = [{ s with messages := [], displayMessages := [], updatedAt := now }]
        ∧ (m.deleteSession now s.id).2 = false := by
      unfold SessionManager.deleteSession
      rw [hs]
      simp [beq_self_eq_true]
    exact ⟨key.2, key.1, by rw [key.1]; rfl⟩
  · intro sid t hlen ht htid
    have hnle : ¬(m.sessions.length ≤ 1) := by omega
    have he : m.deleteSession now sid
        = ({ m with
              sessions := m.sessions.eraseP (fun s => s.id == sid),
              activeSessionId :=
                if (m.sessions.any (fun s => s.id == sid))
                    && (m.activeSessionId == some sid) then
                  (m.sessions.eraseP (fun s => s.id == sid)).head?.map Session.id
                else m.activeSessionId },
            m.sessions.any (fun s => s.id == sid)) := by
      unfold SessionManager.deleteSession
      rw [if_neg hnle]
    have hpt : (t.id == sid) = true := beq_iff_eq.mpr htid
    have hany : m.sessions.any (fun s => s.id == sid) = true :=
      List.any_eq_true.mpr ⟨t, ht, hpt⟩
    have herlen : (m.sessions.eraseP (fun s => s.id == sid)).length
        = m.sessions.length - 1 := List.length_eraseP_of_mem ht hpt
    refine ⟨?_, ?_, ?_, ?_⟩
    · rw [he]
      exact hany
    · rw [he]
      exact herlen
    · rw [he]
      intro u hu huid
      obtain ⟨a, l₁, l₂, hl₁, hpa, hl, herase⟩ :=
        @List.exists_of_eraseP Session (fun s => s.id == sid) m.sessions t ht hpt
      rw [herase] at hu
      rcases List.mem_append.mp hu with h1 | h2
      · exact (hl₁ u h1) (beq_iff_eq.mpr huid)
      · have haid : a.id = sid := eq_of_beq hpa
        rw [hl, List.map_append, List.map_cons] at hnodup
        have hsub : (a.id :: l₂.map Session.id).Sublist
            (l₁.map Session.id ++ a.id :: l₂.map Session.id) :=
          List.sublist_append_right _ _
        have hnd2 : (a.id :: l₂.map Session.id).Nodup :=
          List.Pairwise.sublist hsub hnodup
        have hmem : a.id ∈ l₂.map Session.id := by
          rw [haid, ← huid]
          exact List.mem_map_of_mem Session.id h2
        exact (List.nodup_cons.mp hnd2).1 hmem
    · intro hact
      have hcond : ((m.sessions.any (fun s => s.id == sid))
          && (m.activeSessionId == some sid)) = true := by
        rw [hany, hact]
        simp
      have hne : m.sessions.eraseP (fun s => s.id == sid) ≠ [] := by
        intro hcon
        rw [hcon] at herlen
        simp at herlen
        omega
      cases hsp : m.sessions.eraseP (fun s => s.id == sid) with
      | nil => exact absurd hsp hne
      | cons u us =>
        rw [he]
        refine ⟨u, ?_, ?_⟩
        · show u ∈ m.sessions.eraseP (fun s => s.id == sid)
          rw [hsp]
          exact List.mem_cons_self u us
        · show (if ((m.sessions.any (fun s => s.id == sid))
                && (m.activeSessionId == some sid)) = true then
              (m.sessions.eraseP (fun s => s.id == sid)).head?.map Session.id
            else m.activeSessionId) = some u.id
          rw [if_pos hcond, hsp]
          rfl

/-- A two-session manager (ids `"a"`, `"b"`, the latter active). -/
def mgrTwo : SessionManager :=
  { sessions :=
      [{ id := "a", name := "A", createdAt := 0, updatedAt := 0,
         messages := [], displayMessages := [] },
       { id := "b", name := "B", createdAt := 1, updatedAt := 1,
         messages := [], displayMessages := [] }],
    activeSessionId := some "b" }

/-- C2 witness: the theorem applied to a one-session manager (clears, keeps
count 1, returns `false`) and to a two-session manager deleting the active
session (removes it, activates the remaining one, returns `true`). -/
theorem c2_deleteSession_witness :
    ((mgrOne.deleteSession 7 "s1").2 = false
      ∧ (mgrOne.deleteSession 7 "s1").1.sessions.length = 1)
    ∧ ((mgrTwo.deleteSession 7 "b").2 = true
      ∧ (mgrTwo.deleteSession 7 "b").1.sessions.length = 1
      ∧ (∃ u ∈ (mgrTwo.deleteSession 7 "b").1.sessions,
          (mgrTwo.deleteSession 7 "b").1.activeSessionId = some u.id)) := by
  have h1 := (c2_deleteSession mgrOne 7 (by decide)).1
    { id := "s1", name := "n", createdAt := 0, updatedAt := 0,
      messages := [], displayMessages := [] } rfl
  have h2 := (c2_deleteSession mgrTwo 7 (by decide)).2 "b"
    { id := "b", name := "B", createdAt := 1, updatedAt := 1,
      messages := [], displayMessages := [] }
    (by decide) (by decide) rfl
  exact ⟨⟨h1.1, h1.2.2⟩, h2.1, h2.2.1, h2.2.2.2 rfl⟩

/-! ## C7: `createSession` cap and LRU eviction -/

theorem mem_of_getLast?_eq : ∀ (l : List α) (z : α), l.getLast? = some z → z ∈ l := by
  intro l
  induction l with
  | nil => intro z h; simp at h
  | cons a as ih =>
    intro z h
    cases as with
    | nil =>
      rw [List.getLast?_singleton] at h
      rw [Option.some_inj] at h
      subst h
      exact List.mem_singleton_self a
    | cons b bs =>
      rw [List.getLast?_cons_cons] at h
      exact List.mem_cons_of_mem a (ih z h)

theorem pairwise_getLast_min {R : α → α → Prop} :
    ∀ (l : List α) (z : α), l.Pairwise R → l.getLast? = some z →
      ∀ x ∈ l, x = z ∨ R x z := by
  intro l
  induction l with
  | nil => intro z _ _ x hx; simp at hx
  | cons a as ih =>
    intro z hp hz x hx
    cases as with
    | nil =>
      rw [List.getLast?_singleton, Option.some_inj] at hz
      rcases List.mem_singleton.mp hx with rfl
      exact Or.inl hz
    | cons b bs =>
      rw [List.getLast?_cons_cons] at hz
      rcases List.mem_cons.mp hx with hxa | hxtail
      · subst hxa
        exact Or.inr ((List.pairwise_cons.mp hp).1 z (mem_of_getLast?_eq _ z hz))
      · exact ih z (List.pairwise_cons.mp hp).2 hz x hxtail

/-- The comparator of `getSessionList`: `(a, b) => b.updatedAt - a.updatedAt`
sorts by `updatedAt` descending (as a stable sort, like JS `Array.sort`). -/
def sessionLe (a b : Session) : Bool := decide (b.updatedAt ≤ a.updatedAt)

/-- `getSessionList`: all sessions sorted by `updatedAt`, newest first. -/
def SessionManager.getSessionList (m : SessionManager) : List Session :=
  m.sessions.mergeSort sessionLe

/-- The session record `createSession` constructs (`id` and `now` stand for
the generated id and `Date.now()`; `name` is the given or generated name). -/
def newSession (id name : String) (now : Nat) : Session :=
  { id := id, name := name, createdAt := now, updatedAt := now,
    messages := [], displayMessages := [] }

/-- `createSession(name?)`: insert the new session, make it active, and if
the session count now exceeds `MAX_SESSIONS` delete the last entry of
`getSessionList()` (the least-recently-updated session). -/
def SessionManager.createSession (m : SessionManager) (id name : String) (now : Nat) :
    SessionManager × Session :=
  if MAX_SESSIONS < (m.sessions ++ [newSession id name now]).length then
    match (SessionManager.mk (m.sessions ++ [newSession id name now])
        (some id)).getSessionList[(m.sessions ++ [newSession id name now]).length - 1]? with
    | some oldest =>
        (((SessionManager.mk (m.sessions ++ [newSession id name now])
            (some id)).deleteSession now oldest.id).1, newSession id name now)
    | none =>
        (SessionManager.mk (m.sessions ++ [newSession id name now]) (some id),
         newSession id name now)
  else
    (SessionManager.mk (m.sessions ++ [newSession id name now]) (some id),
     newSession id name now)

/-- C7: from a state within the cap whose sessions are all strictly older
than `now` (with unique ids, and a fresh generated id), `createSession`
makes the new session active and keeps the session count between 1 and 20;
when the count would exceed 20 it evicts exactly a least-recently-updated
existing session. -/
theorem c7_createSession (m : SessionManager) (id name : String) (now : Nat)
    (hfresh : ∀ t ∈ m.sessions, t.id ≠ id)
    (hts : ∀ t ∈ m.sessions, t.updatedAt < now)
    (hnodup : (m.sessions.map Session.id).Nodup)
    (hcap : m.sessions.length ≤ MAX_SESSIONS) :
    (m.createSession id name now).1.activeSessionId = some id
    ∧ (m.createSession id name now).2.id = id
    ∧ 1 ≤ (m.createSession id name now).1.sessions.length
    ∧ (m.createSession id name now).1.sessions.length ≤ MAX_SESSIONS
    ∧ (m.sessions.length < MAX_SESSIONS →
        (m.createSession id name now).1.sessions
          = m.sessions ++ [(m.createSession id name now).2])
    ∧ (m.sessions.length = MAX_SESSIONS →
        ∃ ev l₁ l₂, m.sessions = l₁ ++ ev :: l₂
          ∧ (∀ t ∈ m.sessions, ev.updatedAt ≤ t.updatedAt)
          ∧ (m.createSession id name now).1.sessions
              = l₁ ++ l₂ ++ [(m.createSession id name now).2]) := by
  rcases Nat.lt_or_ge m.sessions.length MAX_SESSIONS with hlt | hge
  · -- no eviction: the cap is not exceeded
    have hnotgt : ¬(MAX_SESSIONS < (m.sessions ++ [newSession id name now]).length) := by
      rw [List.length_append]
      simp only [List.length_cons, List.length_nil]
      omega
    have he : m.createSession id name now
        = (SessionManager.mk (m.sessions ++ [newSession id name now]) (some id),
           newSession id name now) := by
      unfold SessionManager.createSession
      rw [if_neg hnotgt]
    rw [he]
    refine ⟨rfl, rfl, ?_, ?_, fun _ => rfl, fun heq => absurd heq (by omega)⟩
    · show 1 ≤ (m.sessions ++ [newSession id name now]).length
      rw [List.length_append]
      simp only [List.length_cons, List.length_nil]
      omega
    · show (m.sessions ++ [newSession id name now]).length ≤ MAX_SESSIONS
      rw [List.length_append]
      simp only [List.length_cons, List.length_nil]
      omega
  · -- at the cap: the new session pushes the count to 21 and one session
    -- is evicted
    have hlen : m.sessions.length = MAX_SESSIONS := le_antisymm hcap hge
    have hlen1 : (m.sessions ++ [newSession id name now]).length = MAX_SESSIONS + 1 := by
      rw [List.length_append]
      simp only [List.length_cons, List.length_nil]
      omega
    have hgt : MAX_SESSIONS < (m.sessions ++ [newSession id name now]).length := by
      omega
    set s := newSession id name now with hs
    set L := (m.sessions ++ [s]).mergeSort sessionLe with hL
    have hLlen : L.length = MAX_SESSIONS + 1 := by
      rw [hL, List.length_mergeSort, hlen1]
    have hLne : L ≠ [] := by
      intro hcon
      rw [hcon] at hLlen
      simp at hLlen
    have hglast : L.getLast? = some (L.getLast hLne) := List.getLast?_eq_getLast L hLne
    set z := L.getLast hLne with hz
    have htrans : ∀ a b c : Session, sessionLe a b = true → sessionLe b c = true →
        sessionLe a c = true := by
      intro a b c hab hbc
      simp only [sessionLe, decide_eq_true_eq] at *
      omega
    have htotal : ∀ a b : Session, (sessionLe a b || sessionLe b a) = true := by
      intro a b
      simp only [sessionLe, Bool.or_eq_true, decide_eq_true_eq]
      omega
    have hpair : L.Pairwise (fun a b => sessionLe a b = true) :=
      List.sorted_mergeSort htrans htotal (m.sessions ++ [s])
    have hperm : L.Perm (m.sessions ++ [s]) := List.mergeSort_perm (m.sessions ++ [s]) _
    have hmin : ∀ x ∈ m.sessions ++ [s], z.updatedAt ≤ x.updatedAt := by
      intro x hx
      have hxL : x ∈ L := hperm.mem_iff.mpr hx
      rcases pairwise_getLast_min L z hpair hglast x hxL with rfl | hle
      · exact le_refl _
      · simpa [sessionLe, decide_eq_true_eq] using hle
    have hzmemL : z ∈ L := List.getLast_mem hLne
    have hzmem : z ∈ m.sessions ++ [s] := hperm.mem_iff.mp hzmemL
    have hzold : z ∈ m.sessions := by
      rcases List.mem_append.mp hzmem with hzm | hzs
      · exact hzm
      · exfalso
        rw [List.mem_singleton.mp hzs] at hmin
        cases hms : m.sessions with
        | nil => rw [hms] at hlen; simp [MAX_SESSIONS] at hlen
        | cons t0 ts =>
          have ht0 : t0 ∈ m.sessions := by rw [hms]; exact List.mem_cons_self t0 ts
          have h1 := hmin t0 (List.mem_append.mpr (Or.inl ht0))
          have h2 := hts t0 ht0
          rw [hs] at h1
          simp only [newSession] at h1
          omega
    have hzid : z.id ≠ id := hfresh z hzold
    have hidx : (SessionManager.mk (m.sessions ++ [s])
        (some id)).getSessionList[(m.sessions ++ [s]).length - 1]? = some z := by
      show ((m.sessions ++ [s]).mergeSort sessionLe)[(m.sessions ++ [s]).length - 1]? = some z
      rw [← hL, hlen1]
      have : MAX_SESSIONS + 1 - 1 = L.length - 1 := by omega
      rw [this, ← List.getLast?_eq_getElem?]
      exact hglast
    have he : m.createSession id name now
        = (((SessionManager.mk (m.sessions ++ [s]) (some id)).deleteSession now z.id).1, s) := by
      unfold SessionManager.createSession
      rw [← hs, if_pos hgt, hidx]
    -- the eviction branch of deleteSession
    have hnle : ¬((m.sessions ++ [s]).length ≤ 1) := by
      rw [hlen1]
      unfold MAX_SESSIONS
      omega
    have hdel : (SessionManager.mk (m.sessions ++ [s]) (some id)).deleteSession now z.id
        = ({ sessions := (m.sessions ++ [s]).eraseP (fun t => t.id == z.id),
             activeSessionId :=
               if ((m.sessions ++ [s]).any (fun t => t.id == z.id))
                   && ((some id : Option String) == some z.id) then
                 ((m.sessions ++ [s]).eraseP (fun t => t.id == z.id)).head?.map Session.id
               else some id },
           (m.sessions ++ [s]).any (fun t => t.id == z.id)) := by
      unfold SessionManager.deleteSession
      rw [if_neg hnle]
    have hbeqid : ((some id : Option String) == some z.id) = false := by
      have : (id == z.id) = false := by
        rcases hb : (id == z.id) with _ | _
        · rfl
        · exact absurd (eq_of_beq hb).symm hzid
      simp [this]
    have hpz : ((fun t : Session => t.id == z.id) z) = true := beq_self_eq_true z.id
    have herase : (m.sessions ++ [s]).eraseP (fun t => t.id == z.id)
        = m.sessions.eraseP (fun t => t.id == z.id) ++ [s] :=
      @List.eraseP_append_left Session (fun t => t.id == z.id) z hpz m.sessions [s] hzold
    obtain ⟨a, l₁, l₂, hl₁, hpa, hlsplit, her2⟩ :=
      @List.exists_of_eraseP Session (fun t => t.id == z.id) m.sessions z hzold hpz
    have haz : a = z := by
      have haid : a.id = z.id := eq_of_beq hpa
      by_contra hne
      -- z is in l₁ or l₂, and shares a's id: contradicts Nodup of the ids
      have hzin : z ∈ l₁ ++ a :: l₂ := by rw [← hlsplit]; exact hzold
      rw [hlsplit, List.map_append, List.map_cons] at hnodup
      rcases List.mem_append.mp hzin with hz1 | hz2
      · have : a.id ∈ l₁.map Session.id := by
          rw [haid]
          exact List.mem_map_of_mem Session.id hz1
        have hdisj := (List.nodup_append.mp hnodup).2.2
        exact hdisj this (List.mem_cons_self a.id _)
      · rcases List.mem_cons.mp hz2 with hza | hzl2
        · exact hne hza.symm
        · have hnd2 := (List.nodup_append.mp hnodup).2.1
          have : a.id ∈ l₂.map Session.id := by
            rw [haid]
            exact List.mem_map_of_mem Session.id hzl2
          exact (List.nodup_cons.mp hnd2).1 this
    have herfin : (m.sessions ++ [s]).eraseP (fun t => t.id == z.id) = (l₁ ++ l₂) ++ [s] := by
      rw [herase, her2]
    refine ⟨?_, ?_, ?_, ?_, fun hcon => absurd hcon (by omega), fun _ => ?_⟩
    · rw [he, hdel]
      show (if ((m.sessions ++ [s]).any (fun t => t.id == z.id))
            && ((some id : Option String) == some z.id) then
          ((m.sessions ++ [s]).eraseP (fun t => t.id == z.id)).head?.map Session.id
        else some id) = some id
      rw [hbeqid, Bool.and_false]
      rfl
    · rw [he, hs]
      show (newSession id name now).id = id
      rfl
    · rw [he, hdel]
      show 1 ≤ ((m.sessions ++ [s]).eraseP (fun t => t.id == z.id)).length
      rw [herfin]
      rw [List.length_append]
      simp only [List.length_cons, List.length_nil]
      omega
    · rw [he, hdel]
      show ((m.sessions ++ [s]).eraseP (fun t => t.id == z.id)).length ≤ MAX_SESSIONS
      have hler : ((m.sessions ++ [s]).eraseP (fun t => t.id == z.id)).length
          = (m.sessions ++ [s]).length - 1 :=
        List.length_eraseP_of_mem (List.mem_append.mpr (Or.inl hzold)) hpz
      omega
    · refine ⟨a, l₁, l₂, hlsplit, ?_, ?_⟩
      · intro t htm
        rw [haz]
        exact hmin t (List.mem_append.mpr (Or.inl htm))
      · rw [he, hdel]
        show (m.sessions ++ [s]).eraseP (fun t => t.id == z.id) = l₁ ++ l₂ ++ [s]
        rw [herfin]

/-- A manager at the session cap: 20 sessions with distinct ids and
`updatedAt` values 0..19. -/
def mgr20 : SessionManager :=
  { sessions := (List.range 20).map (fun i =>
      { id := toString i, name := toString i, createdAt := i, updatedAt := i,
        messages := [], displayMessages := [] }),
    activeSessionId := some "0" }

/-- C7 witness: creating a 21st session at the cap keeps the count at 20
and activates the new session. -/
theorem c7_createSession_witness :
    (mgr20.createSession "new" "nm" 100).1.activeSessionId = some "new"
    ∧ 1 ≤ (mgr20.createSession "new" "nm" 100).1.sessions.length
    ∧ (mgr20.createSession "new" "nm" 100).1.sessions.length ≤ MAX_SESSIONS := by
  have h := c7_createSession mgr20 "new" "nm" 100 (by decide) (by decide) (by decide) (by decide)
  exact ⟨h.1, h.2.2.1, h.2.2.2.1⟩

/-! ## Tool executor (`src/helpers/toolExecutor.ts`) -/

/-- The four document-mutation primitives of the Document Adapter
(`src/helpers/wordBridge.ts`), as abstract actions. -/
inductive DocAction
  | replaceSelection (content : String)
  | insertText (position : String) (content : String)
  | deleteSelection
  | addCommentToSelection (comment : String)
  deriving DecidableEq, Repr

/-- The valid `insert_text` positions. -/
def validPositions : List String :=
  ["before_selection", "after_selection", "document_start", "document_end"]

/-- JS falsiness of an optional string field (`!x`): missing or empty. -/
def strFalsy (o : Option String) : Bool :=
  match o with
  | none => true
  | some v => v == ""

/-- JS `x || dflt` for an optional string field. -/
def strOrDefault (o : Option String) (dflt : String) : String :=
  match o with
  | some v => if v == "" then dflt else v
  | none => dflt

/-- The failure `ToolResult` built by the catch-all of
`executeSingleToolCall`. -/
def mkFailureResult (tc : ToolCall) (e : String) : ToolResult :=
  { toolCallId := tc.id, name := tc.function.name, success := false,
    message := "执行失败: " ++ e, error := some e }

/-- `getPositionLabel`. -/
def getPositionLabel (position : String) : String :=
  if position == "before_selection" then "选区前"
  else if position == "after_selection" then "选区后"
  else if position == "document_start" then "文档开头"
  else if position == "document_end" then "文档末尾"
  else "指定位置"

/-- The known tool names of the `switch`. -/
def knownToolNames : List String :=
  ["replace_selection", "insert_text", "delete_selection", "add_comment_to_selection"]

/-- `executeSingleToolCall`, against an abstract document adapter
`DocAction → σ → Except String σ` (a thrown adapter error leaves the state
unchanged in this model).  Besides the `ToolResult` it returns the adapter
state and the list of document actions the call invoked (`[]` on every
pre-adapter failure path: parse failure, missing required arguments,
invalid position, unknown tool). -/
def executeSingleToolCall {σ : Type} (adapter : DocAction → σ → Except String σ)
    (st : σ) (tc : ToolCall) : ToolResult × σ × List DocAction :=
  if tc.function.name == "replace_selection" then
    match tc.function.arguments with
    | none => (mkFailureResult tc "Failed to parse tool arguments", st, [])
    | some args =>
      if strFalsy args.content then
        (mkFailureResult tc "replace_selection requires content parameter", st, [])
      else
        match adapter (DocAction.replaceSelection (args.content.getD "")) st with
        | Except.ok st' =>
            ({ toolCallId := tc.id, name := tc.function.name, success := true,
               message := strOrDefault args.comment "已替换选中内容" }, st',
             [DocAction.replaceSelection (args.content.getD "")])
        | Except.error e =>
            (mkFailureResult tc e, st, [DocAction.replaceSelection (args.content.getD "")])
  else if tc.function.name == "insert_text" then
    match tc.function.arguments with
    | none => (mkFailureResult tc "Failed to parse tool arguments", st, [])
    | some args =>
      if strFalsy args.position || strFalsy args.content then
        (mkFailureResult tc "insert_text requires position and content parameters", st, [])
      else if !(validPositions.contains (args.position.getD "")) then
        (mkFailureResult tc ("Invalid insert position: " ++ args.position.getD ""), st, [])
      else
        match adapter (DocAction.insertText (args.position.getD "") (args.content.getD "")) st with
        | Except.ok st' =>
            ({ toolCallId := tc.id, name := tc.function.name, success := true,
               message := strOrDefault args.comment
                 ("已在" ++ getPositionLabel (args.position.getD "") ++ "插入内容") }, st',
             [DocAction.insertText (args.position.getD "") (args.content.getD "")])
        | Except.error e =>
            (mkFailureResult tc e, st,
             [DocAction.insertText (args.position.getD "") (args.content.getD "")])
  else if tc.function.name == "delete_selection" then
    match tc.function.arguments with
    | none => (mkFailureResult tc "Failed to parse tool arguments", st, [])
    | some args =>
      match adapter DocAction.deleteSelection st with
      | Except.ok st' =>
          ({ toolCallId := tc.id, name := tc.function.name, success := true,
             message := strOrDefault args.comment "已删除选中内容" }, st',
           [DocAction.deleteSelection])
      | Except.error e => (mkFailureResult tc e, st, [DocAction.deleteSelection])
  else if tc.function.name == "add_comment_to_selection" then
    match tc.function.arguments with
    | none => (mkFailureResult tc "Failed to parse tool arguments", st, [])
    | some args =>
      if strFalsy args.comment then
        (mkFailureResult tc "add_comment_to_selection requires comment parameter", st, [])
      else
        match adapter (DocAction.addCommentToSelection (args.comment.getD "")) st with
        | Except.ok st' =>
            ({ toolCallId := tc.id, name := tc.function.name, success := true,
               message := "已添加批注" }, st',
             [DocAction.addCommentToSelection (args.comment.getD "")])
        | Except.error e =>
            (mkFailureResult tc e, st, [DocAction.addCommentToSelection (args.comment.getD "")])
  else
    ({ toolCallId := tc.id, name := tc.function.name, success := false,
       message := "未知工具: " ++ tc.function.name,
       error := some ("Unknown tool: " ++ tc.function.name) }, st, [])

/-- `executeToolCalls`: run every call sequentially, collecting one result
per call; a failed call does not stop the batch. -/
def executeToolCalls {σ : Type} (adapter : DocAction → σ → Except String σ)
    (st : σ) : List ToolCall → List ToolResult × σ × List DocAction
  | [] => ([], st, [])
  | tc :: rest =>
    let r := executeSingleToolCall adapter st tc
    let rs := executeToolCalls adapter r.2.1 rest
    (r.1 :: rs.1, rs.2.1, r.2.2 ++ rs.2.2)

theorem executeSingleToolCall_id {σ : Type} (adapter : DocAction → σ → Except String σ)
    (st : σ) (tc : ToolCall) :
    (executeSingleToolCall adapter st tc).1.toolCallId = tc.id := by
  unfold executeSingleToolCall
  repeat' split
  all_goals rfl

theorem executeToolCalls_length {σ : Type} (adapter : DocAction → σ → Except String σ)
    (tcs : List ToolCall) :
    ∀ st, (executeToolCalls adapter st tcs).1.length = tcs.length := by
  induction tcs with
  | nil => intro st; rfl
  | cons tc rest ih =>
    intro st
    unfold executeToolCalls
    simp only [List.length_cons]
    rw [ih]

theorem executeToolCalls_cons {σ : Type} (adapter : DocAction → σ → Except String σ)
    (st : σ) (tc : ToolCall) (rest : List ToolCall) :
    executeToolCalls adapter st (tc :: rest)
      = ((executeSingleToolCall adapter st tc).1
           :: (executeToolCalls adapter (executeSingleToolCall adapter st tc).2.1 rest).1,
         (executeToolCalls adapter (executeSingleToolCall adapter st tc).2.1 rest).2.1,
         (executeSingleToolCall adapter st tc).2.2
           ++ (executeToolCalls adapter (executeSingleToolCall adapter st tc).2.1 rest).2.2) :=
  rfl

theorem executeToolCalls_ids {σ : Type} (adapter : DocAction → σ → Except String σ)
    (tcs : List ToolCall) :
    ∀ (st : σ) (i : Nat),
      ((executeToolCalls adapter st tcs).1[i]?).map ToolResult.toolCallId
        = (tcs[i]?).map ToolCall.id := by
  induction tcs with
  | nil => intro st i; rfl
  | cons tc rest ih =>
    intro st i
    unfold executeToolCalls
    cases i with
    | zero =>
      simp only [List.getElem?_cons_zero, Option.map_some]
      show some (executeSingleToolCall adapter st tc).1.toolCallId = some tc.id
      rw [executeSingleToolCall_id]
    | succ j =>
      simp only [List.getElem?_cons_succ]
      exact ih _ j

theorem executeToolCalls_append {σ : Type} (adapter : DocAction → σ → Except String σ)
    (xs : List ToolCall) :
    ∀ (st : σ) (ys : List ToolCall),
      executeToolCalls adapter st (xs ++ ys)
        = ((executeToolCalls adapter st xs).1
              ++ (executeToolCalls adapter (executeToolCalls adapter st xs).2.1 ys).1,
           (executeToolCalls adapter (executeToolCalls adapter st xs).2.1 ys).2.1,
           (executeToolCalls adapter st xs).2.2
              ++ (executeToolCalls adapter (executeToolCalls adapter st xs).2.1 ys).2.2) := by
  induction xs with
  | nil => intro st ys; simp [executeToolCalls]
  | cons tc rest ih =>
    intro st ys
    rw [List.cons_append, executeToolCalls_cons, ih, executeToolCalls_cons]
    simp [List.append_assoc]

theorem executeSingleToolCall_parse_fail {σ : Type}
    (adapter : DocAction → σ → Except String σ) (st : σ) (tc : ToolCall)
    (hname : tc.function.name ∈ knownToolNames) (harg : tc.function.arguments = none) :
    executeSingleToolCall adapter st tc
      = (mkFailureResult tc "Failed to parse tool arguments", st, []) := by
  have hname' : tc.function.name = "replace_selection"
      ∨ tc.function.name = "insert_text"
      ∨ tc.function.name = "delete_selection"
      ∨ tc.function.name = "add_comment_to_selection" := by
    simpa [knownToolNames] using hname
  rcases hname' with h | h | h | h <;>
    simp [executeSingleToolCall, h, harg]

theorem executeSingleToolCall_missing_arg {σ : Type}
    (adapter : DocAction → σ → Except String σ) (st : σ) (tc : ToolCall)
    (args : ToolArgsObj) (harg : tc.function.arguments = some args) :
    (tc.function.name = "replace_selection" → strFalsy args.content = true →
      executeSingleToolCall adapter st tc
        = (mkFailureResult tc "replace_selection requires content parameter", st, []))
    ∧ (tc.function.name = "insert_text" →
        (strFalsy args.position || strFalsy args.content) = true →
      executeSingleToolCall adapter st tc
        = (mkFailureResult tc "insert_text requires position and content parameters", st, []))
    ∧ (tc.function.name = "add_comment_to_selection" → strFalsy args.comment = true →
      executeSingleToolCall adapter st tc
        = (mkFailureResult tc "add_comment_to_selection requires comment parameter", st, [])) := by
  refine ⟨?_, ?_, ?_⟩ <;> intro hn hf <;> simp [executeSingleToolCall, hn, harg, hf]

theorem executeSingleToolCall_unknown {σ : Type}
    (adapter : DocAction → σ → Except String σ) (st : σ) (tc : ToolCall)
    (h : tc.function.name ∉ knownToolNames) :
    executeSingleToolCall adapter st tc
      = ({ toolCallId := tc.id, name := tc.function.name, success := false,
           message := "未知工具: " ++ tc.function.name,
           error := some ("Unknown tool: " ++ tc.function.name) }, st, []) := by
  simp only [knownToolNames, List.mem_cons, List.not_mem_nil, or_false, not_or] at h
  obtain ⟨h1, h2, h3, h4⟩ := h
  simp [executeSingleToolCall, h1, h2, h3, h4]

/-- C4: for every batch of tool calls, `executeToolCalls` returns exactly
one `ToolResult` per call, in order, each referencing the id of its
originating call; a call whose payload fails JSON parsing or lacks a
required argument yields a failure result without invoking any document
operation (and without touching the document state); an unknown operation
name yields a failure result identifying that name; and execution of a
batch always continues past failures — the calls after any prefix are
executed exactly as they would be from the state the prefix left. -/
theorem c4_executeToolCalls {σ : Type} (adapter : DocAction → σ → Except String σ)
    (st : σ) (tcs : List ToolCall) :
    (executeToolCalls adapter st tcs).1.length = tcs.length
    ∧ (∀ i : Nat, ((executeToolCalls adapter st tcs).1[i]?).map ToolResult.toolCallId
        = (tcs[i]?).map ToolCall.id)
    ∧ (∀ tc : ToolCall, tc.function.name ∈ knownToolNames →
        tc.function.arguments = none →
        executeSingleToolCall adapter st tc
          = (mkFailureResult tc "Failed to parse tool arguments", st, []))
    ∧ (∀ (tc : ToolCall) (args : ToolArgsObj), tc.function.arguments = some args →
        ((tc.function.name = "replace_selection" ∧ strFalsy args.content = true)
          ∨ (tc.function.name = "insert_text"
              ∧ (strFalsy args.position || strFalsy args.content) = true)
          ∨ (tc.function.name = "add_comment_to_selection" ∧ strFalsy args.comment = true)) →
        (executeSingleToolCall adapter st tc).1.success = false
        ∧ (executeSingleToolCall adapter st tc).2.1 = st
        ∧ (executeSingleToolCall adapter st tc).2.2 = [])
    ∧ (∀ tc : ToolCall, tc.function.name ∉ knownToolNames →
        executeSingleToolCall adapter st tc
          = ({ toolCallId := tc.id, name := tc.function.name, success := false,
               message := "未知工具: " ++ tc.function.name,
               error := some ("Unknown tool: " ++ tc.function.name) }, st, []))
    ∧ (∀ xs ys : List ToolCall,
        executeToolCalls adapter st (xs ++ ys)
          = ((executeToolCalls adapter st xs).1
                ++ (executeToolCalls adapter (executeToolCalls adapter st xs).2.1 ys).1,
             (executeToolCalls adapter (executeToolCalls adapter st xs).2.1 ys).2.1,
             (executeToolCalls adapter st xs).2.2
                ++ (executeToolCalls adapter (executeToolCalls adapter st xs).2.1 ys).2.2)) := by
  refine ⟨executeToolCalls_length adapter tcs st,
         fun i => executeToolCalls_ids adapter tcs st i,
         fun tc h1 h2 => executeSingleToolCall_parse_fail adapter st tc h1 h2,
         ?_,
         fun tc h => executeSingleToolCall_unknown adapter st tc h,
         fun xs ys => executeToolCalls_append adapter xs st ys⟩
  intro tc args harg hcase
  have hm := executeSingleToolCall_missing_arg adapter st tc args harg
  rcases hcase with ⟨hn, hf⟩ | ⟨hn, hf⟩ | ⟨hn, hf⟩
  · rw [hm.1 hn hf]
    exact ⟨rfl, rfl, rfl⟩
  · rw [hm.2.1 hn hf]
    exact ⟨rfl, rfl, rfl⟩
  · rw [hm.2.2 hn hf]
    exact ⟨rfl, rfl, rfl⟩

/-- A document adapter over a pure action log: every action succeeds and is
recorded. -/
def logAdapter : DocAction → List DocAction → Except String (List DocAction) :=
  fun a st => Except.ok (st ++ [a])

/-- A 3-call batch whose 2nd call has an unparseable argument payload. -/
def c4Calls : List ToolCall :=
  [{ id := "c1",
     function := { name := "replace_selection", arguments := some { content := some "x" } } },
   { id := "c2", function := { name := "insert_text", arguments := none } },
   { id := "c3",
     function := { name := "add_comment_to_selection", arguments := some { comment := some "note" } } }]

/-- C4 witness: on the 3-call batch with a parse failure in the middle, the
executor still returns 3 results in order, and the failing call touches no
document state. -/
theorem c4_executeToolCalls_witness :
    (executeToolCalls logAdapter [] c4Calls).1.length = 3
    ∧ ((executeToolCalls logAdapter [] c4Calls).1[1]?).map ToolResult.toolCallId = some "c2"
    ∧ executeSingleToolCall logAdapter []
        { id := "c2", function := { name := "insert_text", arguments := none } }
      = (mkFailureResult
          { id := "c2", function := { name := "insert_text", arguments := none } }
          "Failed to parse tool arguments", [], []) := by
  have h := c4_executeToolCalls logAdapter ([] : List DocAction) c4Calls
  refine ⟨?_, ?_, ?_⟩
  · rw [h.1]
    decide
  · rw [h.2.1 1]
    decide
  · exact h.2.2.1 { id := "c2", function := { name := "insert_text", arguments := none } }
      (by decide) rfl

/-! ## Chat transport (`src/helpers/llmClient.ts`): payload-size guard -/

/-- `MAX_REQUEST_BODY_CHARS`. -/
def MAX_REQUEST_BODY_CHARS : Nat := 220000

/-- `formatKb`: `Math.round(chars / 1024)` followed by `" KB"`. -/
def formatKb (chars : Nat) : String :=
  toString ((chars + 512) / 1024) ++ " KB"

/-- The payload-too-large error message of `sendChat`. -/
def payloadTooLargeError (chars : Nat) : String :=
  "请求内容过长（约 " ++ formatKb chars ++ "），可能导致 Office 内置浏览器网络请求失败。建议：清空对话后重试，或把任务拆分成更小的步骤。"

/-- `ChatResult` (usage counters omitted: no claim mentions them). -/
structure ChatResult where
  success : Bool
  message : Option ChatMessage := none
  error : Option String := none
  deriving DecidableEq, Repr

/-- The `sendChat` parameters the modelled claims depend on (tool catalog
and sampling parameters enter only through the abstract size estimator). -/
structure SendChatParams where
  config : ModelConfig
  systemPrompt : String
  messages : List ChatMessage
  deriving DecidableEq, Repr

/-- The system message `sendChat` prepends. -/
def systemMessage (p : SendChatParams) : ChatMessage :=
  { role := "system", content := some p.systemPrompt }

/-- The pruning `while` loop of `sendChat`, fuel-indexed so that it
computes.  Each iteration removes the message at index 1 (the oldest
non-system message) and shortens the list by exactly one, so a fuel equal
to the list length (as `pruneMessages` supplies) always suffices;
`pruneMessagesGo_spec` proves the loop meets its exit condition. -/
def pruneMessagesGo (est : List ChatMessage → Nat) :
    Nat → List ChatMessage → List ChatMessage
  | 0, msgs => msgs
  | Nat.succ fuel, msgs =>
    if MAX_REQUEST_BODY_CHARS < est msgs ∧ 3 < msgs.length then
      match msgs with
      | m0 :: _ :: rest => pruneMessagesGo est fuel (m0 :: rest)
      | l => l
    else msgs

/-- The pruning loop of `sendChat`: `while (requestChars > MAX && len > 3)
prunedMessages = [prunedMessages[0], ...prunedMessages.slice(2)]`. -/
def pruneMessages (est : List ChatMessage → Nat) (msgs : List ChatMessage) :
    List ChatMessage :=
  pruneMessagesGo est msgs.length msgs

/-- The pre-network phase of `sendChat`: config validation, system-prompt
prepending, payload pruning and the size check.  `.send` is the unique
path that reaches `fetch`; `.fail` returns without any network call. -/
inductive PrepareOutcome
  | fail (result : ChatResult)
  | send (messages : List ChatMessage)
  deriving DecidableEq, Repr

def sendChatPrepare (est : List ChatMessage → Nat) (p : SendChatParams) :
    PrepareOutcome :=
  if p.config.baseUrl == "" then
    PrepareOutcome.fail { success := false, error := some "Base URL is not configured" }
  else if p.config.apiKey == "" then
    PrepareOutcome.fail { success := false, error := some "API Key is not configured" }
  else if p.config.model == "" then
    PrepareOutcome.fail { success := false, error := some "Model is not configured" }
  else if MAX_REQUEST_BODY_CHARS
      < est (pruneMessages est (systemMessage p :: p.messages)) then
    PrepareOutcome.fail
      { success := false,
        error := some (payloadTooLargeError
          (est (pruneMessages est (systemMessage p :: p.messages)))) }
  else
    PrepareOutcome.send (pruneMessages est (systemMessage p :: p.messages))

theorem pruneMessagesGo_spec (est : List ChatMessage → Nat) :
    ∀ (fuel : Nat) (rest : List ChatMessage) (m0 : ChatMessage), rest.length ≤ fuel →
      ∃ k, pruneMessagesGo est fuel (m0 :: rest) = m0 :: rest.drop k
        ∧ (∀ j, j < k → MAX_REQUEST_BODY_CHARS < est (m0 :: rest.drop j)
            ∧ 3 < (m0 :: rest.drop j).length)
        ∧ (est (m0 :: rest.drop k) ≤ MAX_REQUEST_BODY_CHARS
            ∨ (m0 :: rest.drop k).length ≤ 3) := by
  intro fuel
  induction fuel with
  | zero =>
    intro rest m0 hle
    have hnil : rest = [] := List.length_eq_zero.mp (Nat.le_zero.mp hle)
    subst hnil
    refine ⟨0, rfl, fun j hj => absurd hj (by omega), Or.inr (by simp)⟩
  | succ fuel ih =>
    intro rest m0 hle
    by_cases hguard : MAX_REQUEST_BODY_CHARS < est (m0 :: rest) ∧ 3 < (m0 :: rest).length
    · cases rest with
      | nil =>
        exact absurd hguard.2 (by simp)
      | cons r1 rest' =>
        have hstep : pruneMessagesGo est (fuel + 1) (m0 :: r1 :: rest')
            = pruneMessagesGo est fuel (m0 :: rest') := by
          show (if MAX_REQUEST_BODY_CHARS < est (m0 :: r1 :: rest')
                  ∧ 3 < (m0 :: r1 :: rest').length then
              pruneMessagesGo est fuel (m0 :: rest')
            else m0 :: r1 :: rest') = pruneMessagesGo est fuel (m0 :: rest')
          rw [if_pos hguard]
        have hle' : rest'.length ≤ fuel := by
          simp only [List.length_cons] at hle
          omega
        obtain ⟨k, h1, h2, h3⟩ := ih rest' m0 hle'
        refine ⟨k + 1, ?_, ?_, h3⟩
        · rw [hstep, h1]
          rfl
        · intro j hj
          cases j with
          | zero => simpa using hguard
          | succ j' => exact h2 j' (by omega)
    · refine ⟨0, ?_, fun j hj => absurd hj (by omega), ?_⟩
      · show (if MAX_REQUEST_BODY_CHARS < est (m0 :: rest)
              ∧ 3 < (m0 :: rest).length then
            match m0 :: rest with
            | m0 :: _ :: rest => pruneMessagesGo est fuel (m0 :: rest)
            | l => l
          else m0 :: rest) = m0 :: rest.drop 0
        rw [if_neg hguard, List.drop_zero]
      · rcases Nat.lt_or_ge MAX_REQUEST_BODY_CHARS (est (m0 :: rest)) with hlt | hge
        · have h2 : ¬(3 < (m0 :: rest).length) := fun hc => hguard ⟨hlt, hc⟩
          refine Or.inr ?_
          rw [List.drop_zero]
          omega
        · exact Or.inl hge

/-- C5 (amended): `sendChat` repeatedly drops the oldest non-system message
(index 1, keeping the system message) while the size estimate exceeds the
220,000-character ceiling and *more than 3* messages remain, so pruning
stops once the estimate no longer exceeds the ceiling or exactly 3 messages
are left (the count never goes below 3); if the estimate still exceeds the
ceiling after pruning, `sendChat` returns the payload-too-large failure
without performing any network call, and otherwise proceeds to the network
with the pruned list. -/
theorem c5_payload_guard (est : List ChatMessage → Nat) (p : SendChatParams)
    (hb : p.config.baseUrl ≠ "") (hk : p.config.apiKey ≠ "") (hm : p.config.model ≠ "") :
    ∃ k, pruneMessages est (systemMessage p :: p.messages)
        = systemMessage p :: p.messages.drop k
      ∧ (∀ j, j < k → MAX_REQUEST_BODY_CHARS < est (systemMessage p :: p.messages.drop j)
          ∧ 3 < (systemMessage p :: p.messages.drop j).length)
      ∧ (est (systemMessage p :: p.messages.drop k) ≤ MAX_REQUEST_BODY_CHARS
          ∨ (systemMessage p :: p.messages.drop k).length ≤ 3)
      ∧ min 3 (systemMessage p :: p.messages).length
          ≤ (systemMessage p :: p.messages.drop k).length
      ∧ (MAX_REQUEST_BODY_CHARS < est (systemMessage p :: p.messages.drop k) →
          sendChatPrepare est p
            = PrepareOutcome.fail
                { success := false,
                  error := some (payloadTooLargeError
                    (est (systemMessage p :: p.messages.drop k))) })
      ∧ (est (systemMessage p :: p.messages.drop k) ≤ MAX_REQUEST_BODY_CHARS →
          sendChatPrepare est p
            = PrepareOutcome.send (systemMessage p :: p.messages.drop k)) := by
  obtain ⟨k, h1, h2, h3⟩ := pruneMessagesGo_spec est
    (systemMessage p :: p.messages).length p.messages (systemMessage p)
    (by simp only [List.length_cons]; omega)
  have h1' : pruneMessages est (systemMessage p :: p.messages)
      = systemMessage p :: p.messages.drop k := h1
  have hn1 : ¬((p.config.baseUrl == "") = true) := by
    simp only [beq_iff_eq]
    exact hb
  have hn2 : ¬((p.config.apiKey == "") = true) := by
    simp only [beq_iff_eq]
    exact hk
  have hn3 : ¬((p.config.model == "") = true) := by
    simp only [beq_iff_eq]
    exact hm
  refine ⟨k, h1', h2, h3, ?_, ?_, ?_⟩
  · -- pruning never goes below min 3 (original length)
    rcases Nat.eq_zero_or_pos k with hk0 | hkpos
    · subst hk0
      rw [List.drop_zero]
      exact Nat.min_le_right _ _
    · have hg := h2 (k - 1) (by omega)
      have hdl : (p.messages.drop (k - 1)).length = p.messages.length - (k - 1) :=
        List.length_drop _ _
      have hdl2 : (p.messages.drop k).length = p.messages.length - k :=
        List.length_drop _ _
      simp only [List.length_cons] at hg ⊢
      rw [hdl2]
      rw [hdl] at hg
      have := hg.2
      omega
  · intro hover
    unfold sendChatPrepare
    rw [if_neg hn1, if_neg hn2, if_neg hn3, h1', if_pos hover]
  · intro hunder
    unfold sendChatPrepare
    rw [if_neg hn1, if_neg hn2, if_neg hn3, h1', if_neg (Nat.not_lt.mpr hunder)]

/-- Discriminator: does the prepare phase reach the network? -/
def PrepareOutcome.isSend : PrepareOutcome → Bool
  | PrepareOutcome.send _ => true
  | PrepareOutcome.fail _ => false

/-- Modelled from the claim's words: the pruning loop as the claim states
it, dropping while the estimate exceeds the ceiling and *at least 3*
messages remain — i.e. "until … fewer than 3 messages remain" — where the
code's guard requires *more than 3* to keep dropping. -/
def pruneMessagesClaimedGo (est : List ChatMessage → Nat) :
    Nat → List ChatMessage → List ChatMessage
  | 0, msgs => msgs
  | Nat.succ fuel, msgs =>
    if MAX_REQUEST_BODY_CHARS < est msgs ∧ 3 ≤ msgs.length then
      match msgs with
      | m0 :: _ :: rest => pruneMessagesClaimedGo est fuel (m0 :: rest)
      | l => l
    else msgs

/-- Modelled from the claim's words: pruning until the estimate is under
the ceiling or fewer than 3 messages remain. -/
def pruneMessagesClaimed (est : List ChatMessage → Nat) (msgs : List ChatMessage) :
    List ChatMessage :=
  pruneMessagesClaimedGo est msgs.length msgs

/-- Modelled from the claim's words: the prepare phase with the claimed
pruning loop. -/
def sendChatPrepareClaimed (est : List ChatMessage → Nat) (p : SendChatParams) :
    PrepareOutcome :=
  if p.config.baseUrl == "" then
    PrepareOutcome.fail { success := false, error := some "Base URL is not configured" }
  else if p.config.apiKey == "" then
    PrepareOutcome.fail { success := false, error := some "API Key is not configured" }
  else if p.config.model == "" then
    PrepareOutcome.fail { success := false, error := some "Model is not configured" }
  else if MAX_REQUEST_BODY_CHARS
      < est (pruneMessagesClaimed est (systemMessage p :: p.messages)) then
    PrepareOutcome.fail
      { success := false,
        error := some (payloadTooLargeError
          (est (pruneMessagesClaimed est (systemMessage p :: p.messages)))) }
  else
    PrepareOutcome.send (pruneMessagesClaimed est (systemMessage p :: p.messages))

/-- A size estimator of the JSON kind: huge whenever the oversized message
is still present, small otherwise. -/
def est0 : List ChatMessage → Nat :=
  fun l => if l.any (fun msg => msg.content == some "BIG") then 300000 else 100

/-- Concrete parameters: system + 3 user messages, the middle one huge. -/
def p0 : SendChatParams :=
  { config := { baseUrl := "https://api.example.com", apiKey := "k", model := "m" },
    systemPrompt := "sys",
    messages :=
      [{ role := "user", content := some "m1" },
       { role := "user", content := some "BIG" },
       { role := "user", content := some "m3" }] }

/-- C5 (counterexample): the claim's loop guard reads "until … fewer than 3
messages remain".  On `p0` the code stops pruning at exactly 3 messages
(the huge one still included) and fails without a network call, while the
claim-as-written procedure would prune once more — down to 2 messages —
fall under the ceiling, and proceed to the network.  So the claim, as
stated, mispredicts the code on this input. -/
theorem c5_payload_guard_counterexample :
    (sendChatPrepare est0 p0).isSend = false
    ∧ (sendChatPrepareClaimed est0 p0).isSend = true
    ∧ pruneMessages est0 (systemMessage p0 :: p0.messages)
        ≠ pruneMessagesClaimed est0 (systemMessage p0 :: p0.messages)
    ∧ (pruneMessages est0 (systemMessage p0 :: p0.messages)).length = 3 := by
  refine ⟨by decide, by decide, by decide, by decide⟩

/-- Parameters small enough never to trigger pruning. -/
def p1 : SendChatParams :=
  { config := { baseUrl := "https://api.example.com", apiKey := "k", model := "m" },
    systemPrompt := "sys",
    messages :=
      [{ role := "user", content := some "m1" },
       { role := "user", content := some "m2" }] }

/-- A simple message-count estimator. -/
def est1 : List ChatMessage → Nat := fun l => 100 * l.length

/-- C5 witness: the amended theorem applied at `est1` / `p1`: the request
is under the ceiling, nothing is pruned, and the prepare phase proceeds to
the network with the system message prepended. -/
theorem c5_payload_guard_witness :
    sendChatPrepare est1 p1 = PrepareOutcome.send (systemMessage p1 :: p1.messages) := by
  obtain ⟨k, h1, h2, h3, h4, h5, h6⟩ :=
    c5_payload_guard est1 p1 (by decide) (by decide) (by decide)
  have hk0 : k = 0 := by
    by_contra hk
    have hg := h2 0 (by omega)
    have : est1 (systemMessage p1 :: p1.messages.drop 0) ≤ 300 := by
      rw [List.drop_zero]
      show 100 * (systemMessage p1 :: p1.messages).length ≤ 300
      decide
    have hmax : MAX_REQUEST_BODY_CHARS = 220000 := rfl
    omega
  subst hk0
  rw [List.drop_zero] at h6
  exact h6 (by decide)

/-! ## C8: `buildEndpoint` -/

/-- Model of the regex strip `baseUrl.replace(/\/+$/, "")`: remove every
trailing slash. -/
def stripTrailingSlashes (s : String) : String :=
  ⟨(s.data.reverse.dropWhile (fun c => c == '/')).reverse⟩

/-- `buildEndpoint` from `src/helpers/llmClient.ts`. -/
def buildEndpoint (baseUrl : String) : String :=
  if strContainsB (stripTrailingSlashes baseUrl) "/chat/completions" then
    stripTrailingSlashes baseUrl
  else if strEndsWith (stripTrailingSlashes baseUrl) "/v1" then
    stripTrailingSlashes baseUrl ++ "/chat/completions"
  else
    stripTrailingSlashes baseUrl ++ "/v1/chat/completions"

theorem head?_dropWhile_not {α : Type} (p : α → Bool) :
    ∀ (l : List α) (x : α), (l.dropWhile p).head? = some x → p x = false := by
  intro l
  induction l with
  | nil => intro x h; simp at h
  | cons a as ih =>
    intro x h
    rw [List.dropWhile_cons] at h
    by_cases hpa : p a = true
    · rw [if_pos hpa] at h
      exact ih x h
    · rw [if_neg hpa] at h
      simp only [List.head?_cons, Option.some_inj] at h
      rw [← h]
      cases hb : p a
      · rfl
      · exact absurd hb hpa

/-- C8: the endpoint is built by first stripping all trailing slashes
(witnessed by the decomposition of the input into the stripped URL followed
by a run of slashes, the stripped URL not ending in one), then: use the URL
as-is if it already contains `/chat/completions`; append only
`/chat/completions` if it ends in `/v1`; otherwise append
`/v1/chat/completions`. -/
theorem c8_buildEndpoint (baseUrl : String) :
    (∃ k, baseUrl.data = (stripTrailingSlashes baseUrl).data ++ List.replicate k '/')
    ∧ (stripTrailingSlashes baseUrl).data.getLast? ≠ some '/'
    ∧ (strContainsB (stripTrailingSlashes baseUrl) "/chat/completions" = true →
        buildEndpoint baseUrl = stripTrailingSlashes baseUrl)
    ∧ (strContainsB (stripTrailingSlashes baseUrl) "/chat/completions" = false →
        strEndsWith (stripTrailingSlashes baseUrl) "/v1" = true →
        buildEndpoint baseUrl = stripTrailingSlashes baseUrl ++ "/chat/completions")
    ∧ (strContainsB (stripTrailingSlashes baseUrl) "/chat/completions" = false →
        strEndsWith (stripTrailingSlashes baseUrl) "/v1" = false →
        buildEndpoint baseUrl = stripTrailingSlashes baseUrl ++ "/v1/chat/completions") := by
  refine ⟨?_, ?_, ?_, ?_, ?_⟩
  · refine ⟨(baseUrl.data.reverse.takeWhile (fun c => c == '/')).length, ?_⟩
    have hsplit : baseUrl.data.reverse.takeWhile (fun c => c == '/')
        ++ baseUrl.data.reverse.dropWhile (fun c => c == '/') = baseUrl.data.reverse :=
      List.takeWhile_append_dropWhile _ _
    have hrep : baseUrl.data.reverse.takeWhile (fun c => c == '/')
        = List.replicate (baseUrl.data.reverse.takeWhile (fun c => c == '/')).length '/' := by
      rw [List.eq_replicate_iff]
      refine ⟨rfl, fun b hb => eq_of_beq ?_⟩
      exact @List.mem_takeWhile_imp Char (fun c => c == '/') baseUrl.data.reverse b hb
    have hstrip : (stripTrailingSlashes baseUrl).data
        = (baseUrl.data.reverse.dropWhile (fun c => c == '/')).reverse := rfl
    rw [hstrip, ← List.reverse_replicate, ← hrep, ← List.reverse_append, hsplit,
      List.reverse_reverse]
  · intro hcon
    have h1 : (baseUrl.data.reverse.dropWhile (fun c => c == '/')).reverse.getLast?
        = some '/' := hcon
    rw [List.getLast?_reverse] at h1
    have := head?_dropWhile_not (fun c => c == '/') baseUrl.data.reverse '/' h1
    simp at this
  · intro hc
    unfold buildEndpoint
    rw [hc]
    simp
  · intro hc hv
    unfold buildEndpoint
    rw [hc, hv]
    simp
  · intro hc hv
    unfold buildEndpoint
    rw [hc, hv]
    simp

/-- C8 witness: the endpoint construction at a bare base URL with a
trailing slash and at a `/v1` base URL. -/
theorem c8_buildEndpoint_witness :
    buildEndpoint "https://api.example.com/" = "https://api.example.com/v1/chat/completions"
    ∧ buildEndpoint "https://x.ai/v1" = "https://x.ai/v1/chat/completions" := by
  have h1 := (c8_buildEndpoint "https://api.example.com/").2.2.2.2 (by decide) (by decide)
  have h2 := (c8_buildEndpoint "https://x.ai/v1").2.2.2.1 (by decide) (by decide)
  constructor
  · rw [h1]
    decide
  · rw [h2]
    decide

/-! ## C6: transient-failure retry of `sendChat` -/

/-- A thrown JS `Error`: its `name` and `message`. -/
structure JsError where
  name : String
  message : String
  deriving DecidableEq, Repr

/-- An HTTP response as the retry logic sees it (body handling is
downstream of the modelled phase). -/
structure HttpResponse where
  ok : Bool
  status : Nat
  deriving DecidableEq, Repr

/-- What one `doFetch()` call does: resolve with a response (of any
status), or throw. -/
inductive FetchOutcome
  | ok (resp : HttpResponse)
  | threw (e : JsError)
  deriving DecidableEq, Repr

/-- Model of JS `s.startsWith(p)`. -/
def strStartsWith (s p : String) : Bool :=
  p.data.isPrefixOf s.data

/-- The transient-failure signature test of `sendChat`. -/
def isTransientNetworkError (msg : String) : Bool :=
  strContainsB msg "Load failed" || strContainsB msg "Failed to fetch"
    || strContainsB msg "NetworkError"

/-- The inner try/retry of `sendChat`: run the first fetch; if it throws
and neither the timeout nor an abort has fired and the message matches a
transient signature, run the fetch once more (after the 500ms delay, which
has no observable effect here); a second throw propagates.  The second
component counts how many times `doFetch` ran. -/
def attemptFetches (first second : FetchOutcome) (didTimeout aborted : Bool) :
    (HttpResponse ⊕ JsError) × Nat :=
  match first with
  | FetchOutcome.ok r => (Sum.inl r, 1)
  | FetchOutcome.threw e =>
    if didTimeout = false ∧ aborted = false ∧ isTransientNetworkError e.message = true then
      match second with
      | FetchOutcome.ok r => (Sum.inl r, 2)
      | FetchOutcome.threw e2 => (Sum.inr e2, 2)
    else (Sum.inr e, 1)

/-- Model of `new URL(endpoint).host` for http(s) URLs, with the source's
catch-fallback of returning the endpoint itself otherwise. -/
def urlHost (endpoint : String) : String :=
  if strStartsWith endpoint "https://" then
    ⟨(endpoint.data.drop 8).takeWhile (fun c => !(c == '/'))⟩
  else if strStartsWith endpoint "http://" then
    ⟨(endpoint.data.drop 7).takeWhile (fun c => !(c == '/'))⟩
  else endpoint

/-- The catch handler of `sendChat` (lines 277–326): timeout message,
abort/cancel messages, the endpoint-host diagnostic for an exact
`"Load failed"` / `"Failed to fetch"` message, else a generic network
error. -/
def handleFetchError (useExternal didTimeout : Bool) (endpoint : String)
    (e : JsError) : ChatResult :=
  if didTimeout then
    { success := false,
      error := some "请求超时。复杂任务可能需要更久，建议拆分任务或减少上下文（清空对话/缩短输入）后重试。" }
  else if e.name == "AbortError" then
    if useExternal then { success := false, error := some "已取消请求" }
    else { success := false, error := some "Request timed out" }
  else if e.message == "Load failed" || e.message == "Failed to fetch" then
    { success := false,
      error := some ("网络请求失败（" ++ e.message
        ++ "）。常见原因：网络/代理限制、TLS 证书问题、或请求过大/耗时过长导致连接被中断。请检查 Base URL 是否可从 Word 访问（当前域名："
        ++ urlHost endpoint
        ++ "），并尝试清空对话、缩短输入或拆分任务后重试。") }
  else { success := false, error := some ("Network error: " ++ e.message) }

/-- The fetch-and-error-handling phase of `sendChat`: a resolved response
goes on to response handling, a propagated throw goes through the catch
handler. -/
def runFetchPhase (endpoint : String) (useExternal didTimeout aborted : Bool)
    (first second : FetchOutcome) : (HttpResponse ⊕ ChatResult) × Nat :=
  match attemptFetches first second didTimeout aborted with
  | (Sum.inl r, n) => (Sum.inl r, n)
  | (Sum.inr e, n) => (Sum.inr (handleFetchError useExternal didTimeout endpoint e), n)

/-- C6 (amended): when neither the timeout nor a cancellation has fired, a
first fetch that resolves (with any status, 2xx or not) is never retried;
a first fetch that throws a transient-signature error is retried exactly
once; and if the retry throws with message exactly `"Load failed"` or
`"Failed to fetch"` (not an abort), `sendChat` returns a network-error
failure whose message contains the endpoint host.  (A retry throw with
another transient signature, e.g. a `"NetworkError"` message, yields the
generic `Network error: …` failure without the host.) -/
theorem c6_transient_retry (endpoint : String) (useExternal : Bool)
    (e1 e2 : JsError) (r : HttpResponse)
    (h1 : isTransientNetworkError e1.message = true)
    (hname : e2.name ≠ "AbortError")
    (hmsg : e2.message = "Load failed" ∨ e2.message = "Failed to fetch") :
    (∀ f2 : FetchOutcome, attemptFetches (FetchOutcome.ok r) f2 false false = (Sum.inl r, 1))
    ∧ (attemptFetches (FetchOutcome.threw e1) (FetchOutcome.threw e2) false false).2 = 2
    ∧ ∃ pre post,
        (runFetchPhase endpoint useExternal false false
            (FetchOutcome.threw e1) (FetchOutcome.threw e2)).1
          = Sum.inr ⟨false, none, some (pre ++ urlHost endpoint ++ post)⟩
        ∧ strContainsB (pre ++ urlHost endpoint ++ post) (urlHost endpoint) = true := by
  have hcond : (false = false ∧ false = false ∧ isTransientNetworkError e1.message = true) :=
    ⟨rfl, rfl, h1⟩
  have hnb : (e2.name == "AbortError") = false := beq_false_of_ne hname
  have hmb : (e2.message == "Load failed" || e2.message == "Failed to fetch") = true := by
    rcases hmsg with h | h <;> simp [h]
  refine ⟨fun f2 => rfl, ?_, ?_⟩
  · show (if (false = false ∧ false = false ∧ isTransientNetworkError e1.message = true) then
        (match FetchOutcome.threw e2 with
         | FetchOutcome.ok r => ((Sum.inl r : HttpResponse ⊕ JsError), 2)
         | FetchOutcome.threw e2 => (Sum.inr e2, 2))
      else (Sum.inr e1, 1)).2 = 2
    rw [if_pos hcond]
  · refine ⟨"网络请求失败（" ++ e2.message
      ++ "）。常见原因：网络/代理限制、TLS 证书问题、或请求过大/耗时过长导致连接被中断。请检查 Base URL 是否可从 Word 访问（当前域名：",
      "），并尝试清空对话、缩短输入或拆分任务后重试。", ?_, ?_⟩
    · have hattempt : attemptFetches (FetchOutcome.threw e1) (FetchOutcome.threw e2) false false
          = (Sum.inr e2, 2) := by
        show (if (false = false ∧ false = false ∧ isTransientNetworkError e1.message = true) then
            (match FetchOutcome.threw e2 with
             | FetchOutcome.ok r => ((Sum.inl r : HttpResponse ⊕ JsError), 2)
             | FetchOutcome.threw e2 => (Sum.inr e2, 2))
          else (Sum.inr e1, 1)) = (Sum.inr e2, 2)
        rw [if_pos hcond]
      unfold runFetchPhase
      rw [hattempt]
      show Sum.inr (handleFetchError useExternal false endpoint e2) = _
      unfold handleFetchError
      rw [if_neg (by simp : ¬(false = true))]
      rw [hnb]
      simp only [Bool.false_eq_true, if_false, hmb, if_true]
    · exact strContainsB_append_middle _ _ _

/-- The retry error of the counterexample: a `TypeError` whose message is
the transient signature `"NetworkError"`. -/
def e2N : JsError := { name := "TypeError", message := "NetworkError" }

/-- C6 (counterexample): `"NetworkError"` is one of the claim's transient
signatures, and such a throw is retried — but when the retry throws it
too, the result is the generic `"Network error: NetworkError"` failure,
which does not reference the endpoint host, contradicting the claim. -/
theorem c6_transient_retry_counterexample :
    isTransientNetworkError "NetworkError" = true
    ∧ (runFetchPhase "https://api.example.com/v1/chat/completions" false false false
        (FetchOutcome.threw e2N) (FetchOutcome.threw e2N)).2 = 2
    ∧ (runFetchPhase "https://api.example.com/v1/chat/completions" false false false
        (FetchOutcome.threw e2N) (FetchOutcome.threw e2N)).1
      = Sum.inr ⟨false, none, some "Network error: NetworkError"⟩
    ∧ urlHost "https://api.example.com/v1/chat/completions" = "api.example.com"
    ∧ strContainsB "Network error: NetworkError" "api.example.com" = false := by
  refine ⟨by decide, by decide, by decide, by decide, by decide⟩

/-- C6 witness: the amended theorem at a concrete endpoint with both
fetches throwing `"Failed to fetch"`. -/
theorem c6_transient_retry_witness :
    (attemptFetches
        (FetchOutcome.threw { name := "TypeError", message := "Failed to fetch" })
        (FetchOutcome.threw { name := "TypeError", message := "Failed to fetch" })
        false false).2 = 2
    ∧ ∃ pre post,
        (runFetchPhase "https://api.example.com/v1/chat/completions" false false false
            (FetchOutcome.threw { name := "TypeError", message := "Failed to fetch" })
            (FetchOutcome.threw { name := "TypeError", message := "Failed to fetch" })).1
          = Sum.inr ⟨false, none,
              some (pre ++ urlHost "https://api.example.com/v1/chat/completions" ++ post)⟩
        ∧ strContainsB (pre ++ urlHost "https://api.example.com/v1/chat/completions" ++ post)
            (urlHost "https://api.example.com/v1/chat/completions") = true := by
  have h := c6_transient_retry "https://api.example.com/v1/chat/completions" false
    { name := "TypeError", message := "Failed to fetch" }
    { name := "TypeError", message := "Failed to fetch" }
    { ok := true, status := 200 }
    (by decide) (by decide) (Or.inr rfl)
  exact ⟨h.2.1, h.2.2⟩

/-! ## C10: `sendChat` never mutates `params.messages` -/

/-- A heap of JS arrays of `ChatMessage`: array identity is the index.
Every array-producing construct `sendChat` applies to message lists —
the spread literal `[systemMsg, ...messages]` and the pruning step
`[pruned[0], ...pruned.slice(2)]` — allocates a fresh array; nothing in
`sendChat` writes through an existing reference (the later
`requestBody.messages = prunedMessages` mutates the request object, not an
array, and the fetch phase only serializes). -/
structure ArrStore where
  arrays : List (List ChatMessage)
  deriving DecidableEq, Repr

/-- Dereference an array. -/
def ArrStore.read (st : ArrStore) (r : Nat) : List ChatMessage :=
  (st.arrays[r]?).getD []

/-- Allocate a fresh array holding `l`. -/
def ArrStore.alloc (st : ArrStore) (l : List ChatMessage) : ArrStore × Nat :=
  ({ arrays := st.arrays ++ [l] }, st.arrays.length)

/-- The pruning loop of `sendChat` over the array store: each iteration
allocates the new array `[pruned[0], ...pruned.slice(2)]` and rebinds the
`prunedMessages` variable (reference `r`, value `cur`) to it. -/
def pruneStoreGo (est : List ChatMessage → Nat) :
    Nat → ArrStore → Nat → List ChatMessage → ArrStore × Nat
  | 0, st, r, _ => (st, r)
  | Nat.succ fuel, st, r, cur =>
    if MAX_REQUEST_BODY_CHARS < est cur ∧ 3 < cur.length then
      match cur with
      | m0 :: _ :: rest =>
        pruneStoreGo est fuel (st.alloc (m0 :: rest)).1 (st.alloc (m0 :: rest)).2 (m0 :: rest)
      | _ => (st, r)
    else (st, r)

/-- The message-array operations of `sendChat` lines 146–198: build
`fullMessages` as a fresh array from the caller's `messages` array
(reference `messagesRef`), then prune.  Returns the final store and the
reference the request body ends up holding. -/
def sendChatStorePhase (est : List ChatMessage → Nat) (sysPrompt : String)
    (st0 : ArrStore) (messagesRef : Nat) : ArrStore × Nat :=
  pruneStoreGo est
    ({ role := "system", content := some sysPrompt } :: st0.read messagesRef).length
    (st0.alloc ({ role := "system", content := some sysPrompt } :: st0.read messagesRef)).1
    (st0.alloc ({ role := "system", content := some sysPrompt } :: st0.read messagesRef)).2
    ({ role := "system", content := some sysPrompt } :: st0.read messagesRef)

theorem read_alloc_preserved (st : ArrStore) (l : List ChatMessage) (q : Nat)
    (h : q < st.arrays.length) : (st.alloc l).1.read q = st.read q := by
  show ((st.arrays ++ [l])[q]?).getD [] = (st.arrays[q]?).getD []
  rw [List.getElem?_append_left h]

theorem pruneStoreGo_preserves (est : List ChatMessage → Nat) :
    ∀ (fuel : Nat) (st : ArrStore) (r : Nat) (cur : List ChatMessage) (q : Nat),
      q < st.arrays.length →
      (pruneStoreGo est fuel st r cur).1.read q = st.read q := by
  intro fuel
  induction fuel with
  | zero => intro st r cur q hq; rfl
  | succ fuel ih =>
    intro st r cur q hq
    by_cases hg : MAX_REQUEST_BODY_CHARS < est cur ∧ 3 < cur.length
    · cases cur with
      | nil => exact absurd hg.2 (by simp)
      | cons m0 tail =>
        cases tail with
        | nil => exact absurd hg.2 (by simp)
        | cons m1 rest =>
          have hstep : pruneStoreGo est (fuel + 1) st r (m0 :: m1 :: rest)
              = pruneStoreGo est fuel (st.alloc (m0 :: rest)).1
                  (st.alloc (m0 :: rest)).2 (m0 :: rest) := by
            show (if MAX_REQUEST_BODY_CHARS < est (m0 :: m1 :: rest)
                    ∧ 3 < (m0 :: m1 :: rest).length then
                pruneStoreGo est fuel (st.alloc (m0 :: rest)).1
                  (st.alloc (m0 :: rest)).2 (m0 :: rest)
              else (st, r)) = _
            rw [if_pos hg]
          rw [hstep]
          have hq' : q < (st.alloc (m0 :: rest)).1.arrays.length := by
            show q < (st.arrays ++ [m0 :: rest]).length
            rw [List.length_append]
            omega
          rw [ih _ _ _ q hq']
          exact read_alloc_preserved st (m0 :: rest) q hq
    · have hstop : pruneStoreGo est (fuel + 1) st r cur = (st, r) := by
        unfold pruneStoreGo
        rw [if_neg hg]
      rw [hstop]

/-- C10: over the array store, the pre-network phase of `sendChat` —
including the pruning loop — leaves the caller's `messages` array exactly
as it was: after the phase, dereferencing `params.messages` yields the
same list (same length, same elements, same order) as before. -/
theorem c10_sendChat_no_mutation (est : List ChatMessage → Nat) (sysPrompt : String)
    (st0 : ArrStore) (messagesRef : Nat) (h : messagesRef < st0.arrays.length) :
    (sendChatStorePhase est sysPrompt st0 messagesRef).1.read messagesRef
        = st0.read messagesRef
    ∧ ((sendChatStorePhase est sysPrompt st0 messagesRef).1.read messagesRef).length
        = (st0.read messagesRef).length := by
  have h1 : messagesRef
      < ((st0.alloc ({ role := "system", content := some sysPrompt }
          :: st0.read messagesRef)).1).arrays.length := by
    show messagesRef < (st0.arrays ++ [_]).length
    rw [List.length_append]
    omega
  have hmain : (sendChatStorePhase est sysPrompt st0 messagesRef).1.read messagesRef
      = st0.read messagesRef := by
    unfold sendChatStorePhase
    rw [pruneStoreGo_preserves est _ _ _ _ messagesRef h1]
    exact read_alloc_preserved st0 _ messagesRef h
  exact ⟨hmain, congrArg List.length hmain⟩

/-- A store holding one caller-owned messages array. -/
def st10 : ArrStore :=
  { arrays := [[{ role := "user", content := some "a" },
                { role := "user", content := some "b" }]] }

/-- C10 witness: after the phase the caller's array still reads back
unchanged. -/
theorem c10_sendChat_no_mutation_witness :
    (sendChatStorePhase est1 "sys" st10 0).1.read 0
      = [{ role := "user", content := some "a" },
         { role := "user", content := some "b" }] := by
  have h := c10_sendChat_no_mutation est1 "sys" st10 0 (by decide)
  rw [h.1]
  decide

/-! ## C9: the selection-required pre-emption of `handleSend`
(`src/taskpane/components/ChatPanel.tsx`) -/

/-- The alternation of `selectionRequiredRegex` (a case-insensitive
substring test, so matching lowercase keywords against the lowercased
input). -/
def selectionKeywords : List String :=
  ["选中", "选区", "selected", "selection", "润色", "改写", "翻译", "翻譯", "替换",
   "删除", "批注", "comment", "polish", "rewrite", "rephrase", "translate",
   "remove", "delete"]

/-- `requiresSelection(input)`. -/
def requiresSelection (input : String) : Bool :=
  selectionKeywords.any (fun k => strContainsB (jsToLower input) k)

/-- Where a `handleSend` invocation ends up, up to the first network call:
silently dropped (`blocked`: empty input, a send already in flight, not
configured, or the request superseded), pre-empted with an error-flagged
DisplayMessage and no network call (`preempted`), or proceeding to build
the user message and issue the chat request (`proceed` — the only
constructor from which the network is reached). -/
inductive SendDecision
  | blocked
  | preempted (role content : String) (isError : Bool)
  | proceed (userMessage : ChatMessage)
  deriving DecidableEq, Repr

/-- The decision logic of `handleSend`: the input guard, the staleness
check after reading the Word context, the selection-required heuristic on
the trimmed input against the trimmed selection, and otherwise the
`buildUserMessage` call that precedes the chat request. -/
def handleSendDecision (inputValue selection documentText userRulesText : String)
    (isLoading isConfigured sendInProgress cancelled : Bool) : SendDecision :=
  if jsTrim inputValue == "" || isLoading || !isConfigured || sendInProgress then
    SendDecision.blocked
  else if cancelled then
    SendDecision.blocked
  else if requiresSelection (jsTrim inputValue) && (jsTrim selection == "") then
    SendDecision.preempted "assistant" "未检测到选中内容，请先选中文本再执行该操作。" true
  else
    SendDecision.proceed (buildUserMessage (jsTrim inputValue) (some selection)
      (some documentText) (some userRulesText))

/-- C9: whenever the (trimmed) user input matches the selection-required
heuristic and the current selection is blank, the send handler pre-empts
with the error-flagged "please select text first" assistant
DisplayMessage — the `preempted` outcome, from which no chat request is
issued. -/
theorem c9_selection_preempt (inputValue selection documentText userRulesText : String)
    (hreq : requiresSelection (jsTrim inputValue) = true)
    (hsel : jsTrim selection = "") :
    handleSendDecision inputValue selection documentText userRulesText false true false false
      = SendDecision.preempted "assistant" "未检测到选中内容，请先选中文本再执行该操作。" true := by
  have hne : (jsTrim inputValue == "") = false := by
    cases hb : jsTrim inputValue == ""
    · rfl
    · exfalso
      have h0 : jsTrim inputValue = "" := eq_of_beq hb
      rw [h0] at hreq
      have hempty : requiresSelection "" = false := by decide
      rw [hempty] at hreq
      cases hreq
  unfold handleSendDecision
  rw [hne, hreq, hsel]
  simp

/-- C9 witness: `"translate this"` with a whitespace-only selection is
pre-empted. -/
theorem c9_selection_preempt_witness :
    handleSendDecision "translate this" "   " "doc" "rules" false true false false
      = SendDecision.preempted "assistant" "未检测到选中内容，请先选中文本再执行该操作。" true :=
  c9_selection_preempt "translate this" "   " "doc" "rules" (by decide) (by decide)
